import Mathlib

/-!
Shallow embedding of the POS backend's order-creation pipeline and related
inventory services (orders.service.ts, stock.service.ts, products.service.ts,
stock-movements.service.ts, sales-returns service, purchases service).

Conventions of the embedding:
* MongoDB documents become Lean structures; object ids become `Nat`.
* JavaScript numbers become `ℚ` (prices, totals, quantities, stock), so the
  0.01 tolerance arithmetic of the pricing validator is exact.
* A database snapshot is a `DBState`; each service method is a pure function
  from a `DBState` (plus arguments) to a result together with the new state.
* Thrown exceptions become `Except` errors; infrastructure failures that the
  source reacts to (a failing save, a failing movement insert, a failing
  compensation update) are injected through a `Faults` record so the
  catch-block behaviour of the source is part of the model.
* Mongo's `findOneAndUpdate` / `findByIdAndUpdate` / `findByIdAndDelete`
  touch the first matching document, modelled by `updateFirst` /
  `removeFirst`.
-/

deriving instance DecidableEq for Except

namespace POS

/-- Direction of a stock movement: the source's string enum
`'in' | 'out' | 'adjustment'` (`in` is a Lean keyword, hence `inflow`). -/
inductive MovementType
  | inflow
  | outflow
  | adjustment
deriving DecidableEq, Repr

/-- Product document (product.schema.ts): authoritative `sellingPrice`,
`costPrice`, current `stock`, reorder threshold `minStock`.  The soft-delete
timestamp `deletedAt` is carried because the claims quantify over products
that have it set. -/
structure Product where
  id : Nat
  name : String
  sellingPrice : ℚ
  costPrice : ℚ
  stock : ℚ
  minStock : ℚ
  deletedAt : Option Nat := none
deriving DecidableEq, Repr

/-- One line item: the shape `\x7b product, quantity, subtotal \x7d` used both by
`CartItemDto` in create-order.dto.ts and by the validated items produced by
`validateAndComputeTotals`. -/
structure CartItemDto where
  product : Nat
  quantity : ℚ
  subtotal : ℚ
deriving DecidableEq, Repr

/-- CreateOrderDto (create-order.dto.ts).  The source field `type` is a Lean
keyword and is embedded as `orderType`. -/
structure CreateOrderDto where
  items : List CartItemDto
  total : ℚ
  tax : ℚ
  discount : ℚ
  finalTotal : ℚ
  paymentMethod : String
  customerName : String
  orderType : String
deriving DecidableEq, Repr

/-- Order document as persisted by OrdersService (items, server totals,
payment data, optional soft-delete timestamp). -/
structure Order where
  id : Nat
  items : List CartItemDto
  total : ℚ
  tax : ℚ
  discount : ℚ
  finalTotal : ℚ
  paymentMethod : String
  customerName : String
  orderType : String
  deletedAt : Option Nat := none
deriving DecidableEq, Repr

/-- StockMovement document (stock.schema.ts): product reference plus
denormalized name, quantity, direction (source field `type`, embedded as
`movementType`), free-text reason, optional originating-document reference. -/
structure StockMovement where
  id : Nat
  productId : Nat
  productName : String
  quantity : ℚ
  movementType : MovementType
  reason : String
  reference : Option Nat
deriving DecidableEq, Repr

/-- Status of a sales return (`'pending' | 'approved' | 'rejected'`). -/
inductive ReturnStatus
  | pending
  | approved
  | rejected
deriving DecidableEq, Repr

/-- SalesReturn document, restricted to the fields the stock logic of
SalesReturnsService reads (productId, quantity, reason, status). -/
structure SalesReturn where
  id : Nat
  productId : Nat
  quantity : ℚ
  reason : String
  status : ReturnStatus
deriving DecidableEq, Repr

/-- Purchase document, restricted to the fields the stock and movement
logic of the purchases service reads (productId, denormalized productName,
quantity, supplier). -/
structure Purchase where
  id : Nat
  productId : Nat
  productName : String
  quantity : ℚ
  supplier : String
deriving DecidableEq, Repr

/-- A database snapshot: the collections the modelled services touch, plus a
counter standing in for Mongo's id generation. -/
structure DBState where
  products : List Product
  orders : List Order
  movements : List StockMovement
  salesReturns : List SalesReturn
  purchases : List Purchase := []
  nextId : Nat
deriving DecidableEq, Repr

/-- Error taxonomy: one constructor per exception the modelled services
throw (NotFoundException / BadRequestException instances), plus the injected
infrastructure failures. -/
inductive OrderError
  | emptyOrder
  | productNotFound (pid : Nat)
  | pricingMismatchTotal (computed received : ℚ)
  | pricingMismatchFinal (computed received : ℚ)
  | insufficientStock (name : String) (available required : ℚ)
  | orderNotFound (oid : Nat)
  | movementNotFound (mid : Nat)
  | salesReturnNotFound (rid : Nat)
  | purchaseNotFound (pid : Nat)
  | saveFailed
  | movementFailed
deriving DecidableEq, Repr

/-- Mongo updates the first document matching the filter; this is the list
analogue used for `findOneAndUpdate` / `findByIdAndUpdate`. -/
def updateFirst {α : Type} (p : α → Bool) (f : α → α) : List α → List α
  | [] => []
  | x :: xs => if p x then f x :: xs else x :: updateFirst p f xs

/-- List analogue of `findByIdAndDelete`: removes the first match. -/
def removeFirst {α : Type} (p : α → Bool) : List α → List α
  | [] => []
  | x :: xs => if p x then xs else x :: removeFirst p xs

/-- Mongoose `productModel.findById`. -/
def findProduct (st : DBState) (pid : Nat) : Option Product :=
  st.products.find? (fun p => p.id == pid)

/-- An unconditional `$inc` of `delta` on a product's `stock` field
(the shape of every direct stock write in the sources). -/
def adjustStock (st : DBState) (pid : Nat) (delta : ℚ) : DBState :=
  { st with
    products :=
      updateFirst (fun p => p.id == pid)
        (fun p => { p with stock := p.stock + delta }) st.products }

/-- Pricing tolerance of `validateAndComputeTotals` (orders.service.ts):
`const tolerance = 0.01`. -/
def tolerance : ℚ := 1 / 100

/-- Loop body of `validateAndComputeTotals`: walks the submitted items in
order, fails on the first missing product, and otherwise accumulates the
server-side total `sellingPrice * quantity` together with the validated items
carrying the server-computed subtotals. -/
def validateItems (st : DBState) : List CartItemDto → Except OrderError (ℚ × List CartItemDto)
  | [] => .ok (0, [])
  | item :: rest =>
    match findProduct st item.product with
    | none => .error (.productNotFound item.product)
    | some p =>
      match validateItems st rest with
      | .error e => .error e
      | .ok (t, vs) =>
        .ok (p.sellingPrice * item.quantity + t,
          { product := item.product, quantity := item.quantity,
            subtotal := p.sellingPrice * item.quantity } :: vs)

/-- Result record of `validateAndComputeTotals`. -/
structure ValidatedTotals where
  computedTotal : ℚ
  computedFinalTotal : ℚ
  items : List CartItemDto
deriving DecidableEq, Repr

/-- OrdersService.validateAndComputeTotals: recomputes totals from the
authoritative product prices, then rejects if the client's `total` or
`finalTotal` deviates by more than the tolerance. -/
def validateAndComputeTotals (st : DBState) (dto : CreateOrderDto) :
    Except OrderError ValidatedTotals :=
  match validateItems st dto.items with
  | .error e => .error e
  | .ok (computedTotal, items) =>
    let computedFinalTotal := computedTotal + dto.tax - dto.discount
    if tolerance < |computedTotal - dto.total| then
      .error (.pricingMismatchTotal computedTotal dto.total)
    else if tolerance < |computedFinalTotal - dto.finalTotal| then
      .error (.pricingMismatchFinal computedFinalTotal dto.finalTotal)
    else
      .ok ⟨computedTotal, computedFinalTotal, items⟩

/-- Injected infrastructure failures: whether the order save throws, whether
the movement insert for the k-th item throws, and whether the compensating
stock restore for a given product throws (the source logs and continues in
that last case). -/
structure Faults where
  saveFails : Bool
  movementFails : Nat → Bool
  releaseFails : Nat → Bool

/-- The fault assignment in which every database write succeeds. -/
def noFaults : Faults :=
  ⟨false, fun _ => false, fun _ => false⟩

/-- The atomic conditional decrement both creation paths issue per item:
`findOneAndUpdate(\x7b _id, stock: \x7b $gte: quantity \x7d \x7d, \x7b $inc: \x7b stock: -quantity \x7d \x7d)`,
with the source's follow-up lookup that distinguishes a missing product from
insufficient stock. -/
def reserveProduct (st : DBState) (item : CartItemDto) : Except OrderError DBState :=
  match findProduct st item.product with
  | none => .error (.productNotFound item.product)
  | some p =>
    if item.quantity ≤ p.stock then
      .ok (adjustStock st item.product (-item.quantity))
    else
      .error (.insufficientStock p.name p.stock item.quantity)

/-- Reservation loop of `createWithTransaction`: inside the session, failures
need no undo bookkeeping (the transaction abort discards the session). -/
def reserveAll : DBState → List CartItemDto → Except OrderError DBState
  | st, [] => .ok st
  | st, item :: rest =>
    match reserveProduct st item with
    | .error e => .error e
    | .ok st' => reserveAll st' rest

/-- Order document built from `\x7b ...createOrderDto, items, total: computedTotal,
finalTotal: computedFinalTotal \x7d` plus `applyDefaults` (the defaults only fill
absent fields; every field is present here). -/
def mkOrder (oid : Nat) (dto : CreateOrderDto) (items : List CartItemDto)
    (computedTotal computedFinalTotal : ℚ) : Order :=
  { id := oid, items := items, total := computedTotal, tax := dto.tax,
    discount := dto.discount, finalTotal := computedFinalTotal,
    paymentMethod := dto.paymentMethod, customerName := dto.customerName,
    orderType := dto.orderType, deletedAt := none }

/-- Insertion of the order document (`orderModel.create` / `.save()`). -/
def persistOrder (st : DBState) (o : Order) : DBState :=
  { st with orders := st.orders ++ [o], nextId := st.nextId + 1 }

/-- StockService.recordMovement (and its with-session variant): fetches the
product for the denormalized name snapshot — `ProductNotFound` if it is gone —
then inserts one immutable movement record. -/
def recordMovement (st : DBState) (pid : Nat) (qty : ℚ) (t : MovementType)
    (reason : String) (reference : Option Nat) : Except OrderError DBState :=
  match findProduct st pid with
  | none => .error (.productNotFound pid)
  | some p =>
    .ok { st with
      movements := st.movements ++
        [{ id := st.nextId, productId := pid, productName := p.name,
           quantity := qty, movementType := t, reason := reason,
           reference := reference }],
      nextId := st.nextId + 1 }

/-- Movement-recording loop of both creation paths: one `out` movement per
item referencing the new order; the insert for item `k` throws when the
injected fault says so. -/
def recordAllMovements (oid : Nat) (f : Faults) :
    DBState → Nat → List CartItemDto → Except OrderError Unit × DBState
  | st, _, [] => (.ok (), st)
  | st, k, item :: rest =>
    if f.movementFails k then (.error .movementFailed, st)
    else
      match recordMovement st item.product item.quantity .outflow
          ("Sale - Order #" ++ toString oid) (some oid) with
      | .error e => (.error e, st)
      | .ok st' => recordAllMovements oid f st' (k + 1) rest

/-- OrdersService.createWithTransaction: reserve every item, persist the
order with the computed totals, record the movements — all in one session;
any failure aborts the transaction, so the caller observes the original
state together with the rethrown error. -/
def createWithTransaction (st : DBState) (dto : CreateOrderDto)
    (items : List CartItemDto) (computedTotal computedFinalTotal : ℚ)
    (f : Faults) : Except OrderError Order × DBState :=
  match reserveAll st items with
  | .error e => (.error e, st)
  | .ok st1 =>
    if f.saveFails then (.error .saveFailed, st)
    else
      let order := mkOrder st1.nextId dto items computedTotal computedFinalTotal
      let st2 := persistOrder st1 order
      match recordAllMovements order.id f st2 0 items with
      | (.error e, _) => (.error e, st)
      | (.ok _, st3) => (.ok order, st3)

/-- Reservation loop of `createWithAtomicOps`: reserves item by item,
accumulating the `(productId, quantity)` pairs that succeeded (the source's
`updatedProducts` array), stopping at the first failure. -/
def reserveLoop : DBState → List CartItemDto → List (Nat × ℚ) →
    Except OrderError Unit × DBState × List (Nat × ℚ)
  | st, [], undo => (.ok (), st, undo)
  | st, item :: rest, undo =>
    match reserveProduct st item with
    | .error e => (.error e, st, undo)
    | .ok st' => reserveLoop st' rest ((item.product, item.quantity) :: undo)

/-- Catch-block compensation of `createWithAtomicOps`: for every recorded
reservation, `findByIdAndUpdate(pid, \x7b $inc: \x7b stock: quantity \x7d \x7d)`; a failing
restore is logged and skipped, never rethrown. -/
def rollbackStock (f : Faults) : DBState → List (Nat × ℚ) → DBState
  | st, [] => st
  | st, (pid, qty) :: rest =>
    if f.releaseFails pid then rollbackStock f st rest
    else rollbackStock f (adjustStock st pid qty) rest

/-- OrdersService.createWithAtomicOps: the non-transactional fallback.  The
reservation loop, the order save and the movement-recording loop all sit in
one try block whose catch restores the reserved stock (best effort) and
rethrows — note that a movement failure lands in that same catch even though
the order document is already persisted. -/
def createWithAtomicOps (st : DBState) (dto : CreateOrderDto)
    (items : List CartItemDto) (computedTotal computedFinalTotal : ℚ)
    (f : Faults) : Except OrderError Order × DBState :=
  match reserveLoop st items [] with
  | (.error e, st1, undo) => (.error e, rollbackStock f st1 undo)
  | (.ok _, st1, undo) =>
    if f.saveFails then (.error .saveFailed, rollbackStock f st1 undo)
    else
      let order := mkOrder st1.nextId dto items computedTotal computedFinalTotal
      let st2 := persistOrder st1 order
      match recordAllMovements order.id f st2 0 items with
      | (.error e, stp) => (.error e, rollbackStock f stp undo)
      | (.ok _, st3) => (.ok order, st3)

/-- OrdersService.create: rejects an empty item list, validates and computes
totals server-side, then dispatches on the transaction-capability probe. -/
def create (st : DBState) (dto : CreateOrderDto) (supportsTransactions : Bool)
    (f : Faults) : Except OrderError Order × DBState :=
  if dto.items.isEmpty then (.error .emptyOrder, st)
  else
    match validateAndComputeTotals st dto with
    | .error e => (.error e, st)
    | .ok v =>
      if supportsTransactions then
        createWithTransaction st dto v.items v.computedTotal v.computedFinalTotal f
      else
        createWithAtomicOps st dto v.items v.computedTotal v.computedFinalTotal f

/-- ProductsService.findAll (products.service.ts): `productModel.find()` —
no `deletedAt` filter of any kind. -/
def productsFindAll (st : DBState) : List Product :=
  st.products

/-- ProductsService.remove: `findByIdAndDelete` — a hard delete. -/
def productsRemove (st : DBState) (pid : Nat) : Except OrderError Product × DBState :=
  match findProduct st pid with
  | none => (.error (.productNotFound pid), st)
  | some p => (.ok p, { st with products := removeFirst (fun x => x.id == pid) st.products })

/-- Mongoose `orderModel.findById` (no soft-delete filter). -/
def findOrder (st : DBState) (oid : Nat) : Option Order :=
  st.orders.find? (fun o => o.id == oid)

/-- OrdersService.findAll: `find(\x7b deletedAt: \x7b $exists: false \x7d \x7d)` — the
soft-delete read filter (the sort and populate decorations are not part of
the membership behaviour modelled here). -/
def ordersFindAll (st : DBState) : List Order :=
  st.orders.filter (fun o => o.deletedAt.isNone)

/-- OrdersService.findOne: `findOne(\x7b _id, deletedAt: \x7b $exists: false \x7d \x7d)`,
`NotFoundException` when nothing matches. -/
def ordersFindOne (st : DBState) (oid : Nat) : Except OrderError Order :=
  match st.orders.find? (fun o => o.id == oid && o.deletedAt.isNone) with
  | none => .error (.orderNotFound oid)
  | some o => .ok o

/-- UpdateOrderDto: `PartialType(CreateOrderDto)` — every field optional. -/
structure UpdateOrderDto where
  items : Option (List CartItemDto) := none
  total : Option ℚ := none
  tax : Option ℚ := none
  discount : Option ℚ := none
  finalTotal : Option ℚ := none
  paymentMethod : Option String := none
  customerName : Option String := none
  orderType : Option String := none
deriving DecidableEq, Repr

/-- The `$set` document OrdersService.update sends: the supplied fields pass
through verbatim, and `applyDefaults(..., DEFAULT_VALUES.order)` fills the
absent `tax` / `discount` / `customerName` with their defaults (0, 0, "");
fields absent from the document (`items`, `total`, `finalTotal`,
`paymentMethod`, `type`) keep their stored values.  No price or total is
recomputed. -/
def applyOrderUpdate (dto : UpdateOrderDto) (o : Order) : Order :=
  { o with
    items := dto.items.getD o.items,
    total := dto.total.getD o.total,
    finalTotal := dto.finalTotal.getD o.finalTotal,
    paymentMethod := dto.paymentMethod.getD o.paymentMethod,
    orderType := dto.orderType.getD o.orderType,
    tax := dto.tax.getD 0,
    discount := dto.discount.getD 0,
    customerName := dto.customerName.getD "" }

/-- OrdersService.update: `findOneAndUpdate(\x7b _id, deletedAt: \x7b $exists:
false \x7d \x7d, orderData)` — overwrites the first matching non-deleted order with
the caller-supplied fields, touching no product and no movement. -/
def ordersUpdate (st : DBState) (oid : Nat) (dto : UpdateOrderDto) :
    Except OrderError Order × DBState :=
  match st.orders.find? (fun o => o.id == oid && o.deletedAt.isNone) with
  | none => (.error (.orderNotFound oid), st)
  | some o =>
    let o' := applyOrderUpdate dto o
    (.ok o',
      { st with
        orders := updateFirst (fun x => x.id == oid && x.deletedAt.isNone)
          (fun _ => o') st.orders })

/-- OrdersService.remove: the soft delete — `findByIdAndUpdate(id,
\x7b deletedAt: new Date() \x7d)`; `now` stands for the wall clock. -/
def ordersRemove (st : DBState) (oid : Nat) (now : Nat) :
    Except OrderError Order × DBState :=
  match findOrder st oid with
  | none => (.error (.orderNotFound oid), st)
  | some o =>
    let o' := { o with deletedAt := some now }
    (.ok o',
      { st with orders := updateFirst (fun x => x.id == oid) (fun _ => o') st.orders })

/-- OrdersService.restore: `findByIdAndUpdate(id, \x7b $unset: \x7b deletedAt: 1 \x7d \x7d)`
— clears the soft-delete mark, leaving every other field untouched. -/
def ordersRestore (st : DBState) (oid : Nat) : Except OrderError Order × DBState :=
  match findOrder st oid with
  | none => (.error (.orderNotFound oid), st)
  | some o =>
    let o' := { o with deletedAt := none }
    (.ok o',
      { st with orders := updateFirst (fun x => x.id == oid) (fun _ => o') st.orders })

/-- Mongoose `stockMovementModel.findById`. -/
def findMovement (st : DBState) (mid : Nat) : Option StockMovement :=
  st.movements.find? (fun m => m.id == mid)

/-- UpdateStockMovementDto: `PartialType(CreateStockMovementDto)` — optional
productId, quantity, type, reference. -/
structure UpdateStockMovementDto where
  productId : Option Nat := none
  quantity : Option ℚ := none
  movementType : Option MovementType := none
  reference : Option Nat := none
deriving DecidableEq, Repr

/-- Field merge performed by `findByIdAndUpdate(id, updateStockMovementDto)`:
each supplied field overwrites the stored one. -/
def applyMovementUpdate (dto : UpdateStockMovementDto) (m : StockMovement) :
    StockMovement :=
  { m with
    productId := dto.productId.getD m.productId,
    quantity := dto.quantity.getD m.quantity,
    movementType := dto.movementType.getD m.movementType,
    reference := match dto.reference with
      | some r => some r
      | none => m.reference }

/-- StockMovementsService.update (stock-movements.service.ts), reachable
through `PUT /stock-movements/:id` on the controller: rewrites an existing
movement in place. -/
def stockMovementsUpdate (st : DBState) (mid : Nat) (dto : UpdateStockMovementDto) :
    Except OrderError StockMovement × DBState :=
  match findMovement st mid with
  | none => (.error (.movementNotFound mid), st)
  | some m =>
    let m' := applyMovementUpdate dto m
    (.ok m',
      { st with movements := updateFirst (fun x => x.id == mid) (fun _ => m') st.movements })

/-- StockMovementsService.remove, reachable through
`DELETE /stock-movements/:id`: deletes the movement document. -/
def stockMovementsRemove (st : DBState) (mid : Nat) :
    Except OrderError StockMovement × DBState :=
  match findMovement st mid with
  | none => (.error (.movementNotFound mid), st)
  | some m =>
    (.ok m, { st with movements := removeFirst (fun x => x.id == mid) st.movements })

/-- Mongoose `salesReturnModel.findById`. -/
def findSalesReturn (st : DBState) (rid : Nat) : Option SalesReturn :=
  st.salesReturns.find? (fun r => r.id == rid)

/-- CreateSalesReturnDto, restricted to the fields the stock logic reads. -/
structure CreateSalesReturnDto where
  productId : Nat
  quantity : ℚ
  reason : String
  status : Option ReturnStatus := none
deriving DecidableEq, Repr

/-- UpdateSalesReturnDto: partial of the create dto. -/
structure UpdateSalesReturnDto where
  quantity : Option ℚ := none
  reason : Option String := none
  status : Option ReturnStatus := none
deriving DecidableEq, Repr

/-- SalesReturnsService.create: saves the return; when it arrives already
approved, adds the quantity back to stock with an unconditional `$inc` and
records an `in` movement. -/
def salesReturnCreate (st : DBState) (dto : CreateSalesReturnDto) :
    Except OrderError SalesReturn × DBState :=
  let r : SalesReturn :=
    { id := st.nextId, productId := dto.productId, quantity := dto.quantity,
      reason := dto.reason, status := dto.status.getD .pending }
  let st1 : DBState :=
    { st with salesReturns := st.salesReturns ++ [r], nextId := st.nextId + 1 }
  if dto.status == some .approved then
    match recordMovement (adjustStock st1 dto.productId dto.quantity)
        dto.productId dto.quantity .inflow
        ("Sales return - " ++ dto.reason) (some r.id) with
    | .error e => (.error e, st1)
    | .ok st2 => (.ok r, st2)
  else (.ok r, st1)

/-- Field merge of `findByIdAndUpdate(id, updateSalesReturnDto)`. -/
def applySalesReturnUpdate (dto : UpdateSalesReturnDto) (r : SalesReturn) :
    SalesReturn :=
  { r with
    quantity := dto.quantity.getD r.quantity,
    reason := dto.reason.getD r.reason,
    status := dto.status.getD r.status }

/-- SalesReturnsService.update: on a status transition into `approved` it
adds the stored quantity to stock (unconditional `$inc`) and records an `in`
movement; on a transition out of `approved` it subtracts the stored quantity
(equally unconditional — no stock-sufficiency check) and records an `out`
movement; then it overwrites the return document with the dto. -/
def salesReturnUpdate (st : DBState) (rid : Nat) (dto : UpdateSalesReturnDto) :
    Except OrderError SalesReturn × DBState :=
  match findSalesReturn st rid with
  | none => (.error (.salesReturnNotFound rid), st)
  | some existing =>
    let newStatus := dto.status.getD existing.status
    let adjusted : Except OrderError DBState :=
      if newStatus = existing.status then .ok st
      else if newStatus = .approved then
        recordMovement (adjustStock st existing.productId existing.quantity)
          existing.productId existing.quantity .inflow
          ("Sales return approved - " ++ existing.reason) (some rid)
      else if existing.status = .approved then
        recordMovement (adjustStock st existing.productId (-existing.quantity))
          existing.productId existing.quantity .outflow
          ("Sales return unapproved - " ++ existing.reason) (some rid)
      else .ok st
    match adjusted with
    | .error e => (.error e, st)
    | .ok st1 =>
      let r' := applySalesReturnUpdate dto existing
      (.ok r',
        { st1 with
          salesReturns := updateFirst (fun x => x.id == rid) (fun _ => r') st1.salesReturns })

/-- SalesReturnsService.remove: deleting an approved return first reverses
its stock effect with an unconditional decrement and records an `out`
movement, then deletes the document. -/
def salesReturnRemove (st : DBState) (rid : Nat) :
    Except OrderError SalesReturn × DBState :=
  match findSalesReturn st rid with
  | none => (.error (.salesReturnNotFound rid), st)
  | some r =>
    let adjusted : Except OrderError DBState :=
      if r.status = .approved then
        recordMovement (adjustStock st r.productId (-r.quantity))
          r.productId r.quantity .outflow
          ("Sales return deleted - " ++ r.reason) (some rid)
      else .ok st
    match adjusted with
    | .error e => (.error e, st)
    | .ok st1 =>
      (.ok r, { st1 with salesReturns := removeFirst (fun x => x.id == rid) st1.salesReturns })

/-- PurchasesService.updateProductStock (the helper every purchase
create/update/delete stock change goes through in the cited service): a
read-then-write that clamps a decrement at zero —
`newStock = type === 'IN' ? stock + quantity : Math.max(0, stock - quantity)` —
written back with a direct `\x7b stock: newStock \x7d` update; silently a no-op when
the product is missing. -/
def updateProductStock (st : DBState) (pid : Nat) (quantity : ℚ)
    (isIncoming : Bool) : DBState :=
  match findProduct st pid with
  | none => st
  | some p =>
    let newStock := if isIncoming then p.stock + quantity else max 0 (p.stock - quantity)
    { st with
      products :=
        updateFirst (fun x => x.id == pid)
          (fun x => { x with stock := newStock }) st.products }

/-- PurchasesService.createStockMovement (the helper of the cited purchases
service): builds a movement record from its arguments — the caller supplies
the denormalized product name, no lookup happens — and saves it; the
source's string enum `'IN' | 'OUT' | 'ADJUSTMENT'` maps onto
`MovementType`. -/
def createStockMovement (st : DBState) (productId : Nat) (productName : String)
    (t : MovementType) (quantity : ℚ) (reason : String)
    (reference : Option Nat) : DBState :=
  { st with
    movements := st.movements ++
      [{ id := st.nextId, productId := productId, productName := productName,
         quantity := quantity, movementType := t, reason := reason,
         reference := reference }],
    nextId := st.nextId + 1 }

/-- CreatePurchaseDto, restricted to the fields the stock and movement
logic reads. -/
structure CreatePurchaseDto where
  productId : Nat
  productName : String
  quantity : ℚ
  supplier : String
deriving DecidableEq, Repr

/-- UpdatePurchaseDto: partial of the create dto. -/
structure UpdatePurchaseDto where
  productId : Option Nat := none
  productName : Option String := none
  quantity : Option ℚ := none
  supplier : Option String := none
deriving DecidableEq, Repr

/-- Field merge of `findByIdAndUpdate(id, updatePurchaseDto)`. -/
def applyPurchaseUpdate (dto : UpdatePurchaseDto) (p : Purchase) : Purchase :=
  { p with
    productId := dto.productId.getD p.productId,
    productName := dto.productName.getD p.productName,
    quantity := dto.quantity.getD p.quantity,
    supplier := dto.supplier.getD p.supplier }

/-- Mongoose `purchaseModel.findById`. -/
def findPurchase (st : DBState) (pid : Nat) : Option Purchase :=
  st.purchases.find? (fun p => p.id == pid)

/-- PurchasesService.create (cited purchases service): saves the purchase,
adds the quantity to stock through `updateProductStock`, and records an
`IN` movement through `createStockMovement`. -/
def purchasesCreate (st : DBState) (dto : CreatePurchaseDto) :
    Purchase × DBState :=
  let purchase : Purchase :=
    { id := st.nextId, productId := dto.productId,
      productName := dto.productName, quantity := dto.quantity,
      supplier := dto.supplier }
  let st1 : DBState :=
    { st with purchases := st.purchases ++ [purchase], nextId := st.nextId + 1 }
  let st2 := updateProductStock st1 dto.productId dto.quantity true
  let st3 := createStockMovement st2 dto.productId dto.productName .inflow
    dto.quantity ("Purchase from " ++ dto.supplier) (some purchase.id)
  (purchase, st3)

/-- PurchasesService.update (cited purchases service): when a truthy new
quantity differs from the stored one (`dto.quantity && dto.quantity !==
existing.quantity` — a quantity of 0 is falsy in JS and skips the step), it
adjusts stock by `Math.abs(diff)` in the direction of the difference and
records a movement; then it overwrites the purchase document with the
dto. -/
def purchasesUpdate (st : DBState) (pid : Nat) (dto : UpdatePurchaseDto) :
    Except OrderError Purchase × DBState :=
  match findPurchase st pid with
  | none => (.error (.purchaseNotFound pid), st)
  | some existing =>
    let st2 : DBState :=
      match dto.quantity with
      | some q =>
        if q ≠ 0 ∧ q ≠ existing.quantity then
          let diff := q - existing.quantity
          createStockMovement
            (updateProductStock st existing.productId |diff| (0 < diff))
            existing.productId existing.productName
            (if 0 < diff then .inflow else .outflow) |diff|
            ("Purchase adjustment - " ++ existing.supplier) (some pid)
        else st
      | none => st
    let p' := applyPurchaseUpdate dto existing
    (.ok p',
      { st2 with
        purchases := updateFirst (fun x => x.id == pid) (fun _ => p') st2.purchases })

/-- PurchasesService.remove (cited purchases service): reverses the stock
increase of the purchase with an `OUT` `updateProductStock`, records the reversal
movement, then deletes the purchase document. -/
def purchasesRemove (st : DBState) (pid : Nat) :
    Except OrderError Purchase × DBState :=
  match findPurchase st pid with
  | none => (.error (.purchaseNotFound pid), st)
  | some p =>
    let st1 := updateProductStock st p.productId p.quantity false
    let st2 := createStockMovement st1 p.productId p.productName .outflow
      p.quantity ("Purchase deleted - " ++ p.supplier) (some pid)
    (.ok p, { st2 with purchases := removeFirst (fun x => x.id == pid) st2.purchases })

/-- Modelled from the spec: the server-side total is "the sum over line
items of sellingPrice × quantity" against the authoritative product store
(0 for a missing product; the claims using this always assume existence). -/
def specServerTotal (st : DBState) : List CartItemDto → ℚ
  | [] => 0
  | item :: rest =>
    ((findProduct st item.product).elim 0 (fun p => p.sellingPrice * item.quantity)) +
      specServerTotal st rest

/-- Modelled from the spec: the server-computed subtotal of each line item. -/
def specItemsOk (st : DBState) (items : List CartItemDto) : Prop :=
  ∀ item ∈ items, ∃ p, findProduct st item.product = some p ∧
    item.subtotal = p.sellingPrice * item.quantity

/-- The data-model invariant of the spec: every product's `stock` field is
nonnegative. -/
def stocksNonneg (st : DBState) : Prop :=
  ∀ p ∈ st.products, 0 ≤ p.stock

instance stocksNonnegDecidable (st : DBState) : Decidable (stocksNonneg st) :=
  inferInstanceAs (Decidable (∀ p ∈ st.products, 0 ≤ p.stock))

/-- Whether a `create` call returned an order (used to record the outcome of
each call in a serialized concurrent schedule). -/
def orderSucceeded (r : Except OrderError Order) : Bool :=
  match r with
  | .ok _ => true
  | .error _ => false

/-- A correctly priced single-item sale of `q` units of product `pid` whose
authoritative price is `price` (client totals match the server exactly). -/
def mkSaleDto (pid : Nat) (price q : ℚ) : CreateOrderDto :=
  { items := [{ product := pid, quantity := q, subtotal := price * q }],
    total := price * q, tax := 0, discount := 0, finalTotal := price * q,
    paymentMethod := "cash", customerName := "", orderType := "sale" }

/-- A batch of concurrent `createOrder` calls against one product,
serialized in commit order: each call's conditional decrement is a single
atomic database operation, so an interleaved execution of the calls is
equivalent to running them one after another in the order in which their
decrements commit, which is what this function does. -/
def runOrders (pid : Nat) (price : ℚ) : DBState → List ℚ → List Bool × DBState
  | st, [] => ([], st)
  | st, q :: qs =>
    let r := create st (mkSaleDto pid price q) true noFaults
    let rest := runOrders pid price r.2 qs
    (orderSucceeded r.1 :: rest.1, rest.2)

/-- Modelled from the spec: "exactly the calls that would fit, fit" — the
greedy first-committed-wins admission of requested quantities against an
available stock `s`. -/
def fitsGreedy : ℚ → List ℚ → List Bool
  | _, [] => []
  | s, q :: qs =>
    if q ≤ s then true :: fitsGreedy (s - q) qs
    else false :: fitsGreedy s qs

/-- Total quantity of the calls marked successful. -/
def selectedSum : List Bool → List ℚ → ℚ
  | true :: bs, q :: qs => q + selectedSum bs qs
  | false :: bs, _ :: qs => selectedSum bs qs
  | _, _ => 0

/-- Concrete fixture: a product priced 4.99 with stock 10. -/
def exProduct : Product :=
  { id := 1, name := "Widget", sellingPrice := 499 / 100, costPrice := 3,
    stock := 10, minStock := 1 }

/-- Concrete fixture: a one-product store. -/
def exState : DBState :=
  { products := [exProduct], orders := [], movements := [], salesReturns := [],
    nextId := 100 }

/-- Concrete fixture: a correctly priced three-unit sale of `exProduct`. -/
def exDto : CreateOrderDto :=
  { items := [{ product := 1, quantity := 3, subtotal := 1497 / 100 }],
    total := 1497 / 100, tax := 0, discount := 0, finalTotal := 1497 / 100,
    paymentMethod := "cash", customerName := "", orderType := "sale" }

/-- Concrete fixture: the same sale with a manipulated client total. -/
def exDtoBad : CreateOrderDto :=
  { exDto with total := 1 }

/-- Concrete fixture: a persisted order. -/
def exOrder : Order :=
  { id := 10, items := [{ product := 1, quantity := 4, subtotal := 20 }],
    total := 20, tax := 0, discount := 0, finalTotal := 20,
    paymentMethod := "cash", customerName := "", orderType := "sale" }

/-- Concrete fixture: a store holding `exOrder`. -/
def exStateOrders : DBState :=
  { products := [exProduct], orders := [exOrder], movements := [],
    salesReturns := [], nextId := 200 }

/-- Concrete fixture: an order update supplying only a new total. -/
def exUpdateDto : UpdateOrderDto :=
  { total := some 42 }

/-- Concrete fixture: a product carrying a soft-delete timestamp. -/
def exDeletedProduct : Product :=
  { id := 2, name := "Gone", sellingPrice := 5, costPrice := 2, stock := 4,
    minStock := 0, deletedAt := some 5 }

/-- Concrete fixture: a store whose only product is soft-deleted. -/
def exStateDeleted : DBState :=
  { products := [exDeletedProduct], orders := [], movements := [],
    salesReturns := [], nextId := 201 }

/-- Concrete fixture: a recorded stock movement. -/
def exMovement : StockMovement :=
  { id := 9, productId := 1, productName := "Widget", quantity := 3,
    movementType := .outflow, reason := "Sale - Order #100", reference := some 100 }

/-- Concrete fixture: a store holding `exMovement`. -/
def exStateMovements : DBState :=
  { products := [exProduct], orders := [], movements := [exMovement],
    salesReturns := [], nextId := 300 }

/-- Concrete fixture: a movement update rewriting the quantity. -/
def exMovementUpdate : UpdateStockMovementDto :=
  { quantity := some 99 }

/-- Concrete fixture: an approved sales return of 5 units. -/
def exApprovedReturn : SalesReturn :=
  { id := 7, productId := 1, quantity := 5, reason := "damaged",
    status := .approved }

/-- Concrete fixture: `exProduct` with only 3 units left. -/
def exReturnProduct : Product :=
  { exProduct with stock := 3 }

/-- Concrete fixture: a store where unapproving `exApprovedReturn` must
subtract 5 units from a stock of 3. -/
def exStateReturn : DBState :=
  { products := [exReturnProduct], orders := [], movements := [],
    salesReturns := [exApprovedReturn], nextId := 400 }

/-- Concrete fixture: the movement insert for the first item fails. -/
def exMoveFaults : Faults :=
  { saveFails := false, movementFails := fun k => k == 0,
    releaseFails := fun _ => false }

/-- Concrete fixture: a second product with stock 1. -/
def exProductB : Product :=
  { id := 2, name := "Bolt", sellingPrice := 2, costPrice := 1, stock := 1,
    minStock := 0 }

/-- Concrete fixture: a two-product store. -/
def exStateTwo : DBState :=
  { products := [exProduct, exProductB], orders := [], movements := [],
    salesReturns := [], nextId := 500 }

/-- Concrete fixture: a correctly priced two-item order whose second item
requests 5 units of `exProductB` (stock 1). -/
def exDtoTwo : CreateOrderDto :=
  { items := [{ product := 1, quantity := 2, subtotal := 998 / 100 },
              { product := 2, quantity := 5, subtotal := 10 }],
    total := 998 / 100 + 10, tax := 0, discount := 0,
    finalTotal := 998 / 100 + 10, paymentMethod := "cash", customerName := "",
    orderType := "sale" }

lemma validateItems_ok_of_allSome (st : DBState) :
    ∀ l : List CartItemDto, (∀ item ∈ l, (findProduct st item.product).isSome) →
      ∃ vs, validateItems st l = .ok (specServerTotal st l, vs) ∧
        specItemsOk st vs ∧
        vs.map (fun i => (i.product, i.quantity)) = l.map (fun i => (i.product, i.quantity)) := by
  intro l
  induction l with
  | nil =>
    intro _
    exact ⟨[], rfl, by simp [specItemsOk], rfl⟩
  | cons item rest ih =>
    intro h
    have hhead : (findProduct st item.product).isSome := h item (by simp)
    obtain ⟨p, hp⟩ := Option.isSome_iff_exists.mp hhead
    obtain ⟨vs, hvs, hok, hsh⟩ := ih (fun i hi => h i (by simp [hi]))
    refine ⟨{ product := item.product, quantity := item.quantity,
              subtotal := p.sellingPrice * item.quantity } :: vs, ?_, ?_, ?_⟩
    · simp only [validateItems, hp, hvs]
      simp [specServerTotal, hp]
    · intro i hi
      rcases List.mem_cons.mp hi with h1 | h2
      · exact ⟨p, by simp [h1, hp], by simp [h1]⟩
      · exact hok i h2
    · simpa [findProduct] using hsh

lemma serverTotal_cons (st : DBState) (item : CartItemDto) (rest : List CartItemDto)
    (p : Product) (hp : findProduct st item.product = some p) :
    specServerTotal st (item :: rest) =
      p.sellingPrice * item.quantity + specServerTotal st rest := by
  simp [specServerTotal, hp]

/-- C3: when every referenced product exists, the Pricing Validator computes
`computedTotal` as the sum of `sellingPrice × quantity` over the line items
and `computedFinalTotal = computedTotal + tax − discount`; it succeeds
(returning the computed values) exactly when both absolute deviations from
the client's `total` and `finalTotal` are at most 0.01, and otherwise fails
with a pricing-mismatch error carrying the computed and the received value —
so a deviation of exactly 0.011 fails and one of exactly 0.01 succeeds. -/
theorem C3_pricing_validator (st : DBState) (dto : CreateOrderDto)
    (h : ∀ item ∈ dto.items, (findProduct st item.product).isSome) :
    ∃ vs, specItemsOk st vs ∧
      (let ct := specServerTotal st dto.items
       let cft := ct + dto.tax - dto.discount
       (|ct - dto.total| ≤ tolerance → |cft - dto.finalTotal| ≤ tolerance →
          validateAndComputeTotals st dto = .ok ⟨ct, cft, vs⟩) ∧
       (tolerance < |ct - dto.total| →
          validateAndComputeTotals st dto = .error (.pricingMismatchTotal ct dto.total)) ∧
       (|ct - dto.total| ≤ tolerance → tolerance < |cft - dto.finalTotal| →
          validateAndComputeTotals st dto = .error (.pricingMismatchFinal cft dto.finalTotal))) := by
  obtain ⟨vs, hvs, hok, _⟩ := validateItems_ok_of_allSome st dto.items h
  refine ⟨vs, hok, ?_, ?_, ?_⟩
  · intro h1 h2
    simp only [validateAndComputeTotals, hvs]
    rw [if_neg (by exact not_lt.mpr h1), if_neg (by exact not_lt.mpr h2)]
  · intro h1
    simp only [validateAndComputeTotals, hvs]
    rw [if_pos h1]
  · intro h1 h2
    simp only [validateAndComputeTotals, hvs]
    rw [if_neg (by exact not_lt.mpr h1), if_pos h2]

/-- Witness for C3 at the fixture store and order. -/
theorem C3_witness :
    (∀ item ∈ exDto.items, (findProduct exState item.product).isSome) ∧
    (∃ vs, specItemsOk exState vs ∧
      (let ct := specServerTotal exState exDto.items
       let cft := ct + exDto.tax - exDto.discount
       (|ct - exDto.total| ≤ tolerance → |cft - exDto.finalTotal| ≤ tolerance →
          validateAndComputeTotals exState exDto = .ok ⟨ct, cft, vs⟩) ∧
       (tolerance < |ct - exDto.total| →
          validateAndComputeTotals exState exDto =
            .error (.pricingMismatchTotal ct exDto.total)) ∧
       (|ct - exDto.total| ≤ tolerance → tolerance < |cft - exDto.finalTotal| →
          validateAndComputeTotals exState exDto =
            .error (.pricingMismatchFinal cft exDto.finalTotal)))) :=
  ⟨by decide, C3_pricing_validator exState exDto (by decide)⟩

/-- C5: a `create` call whose pricing validation fails — a pricing mismatch
or a missing product — returns that error with the database snapshot
entirely unchanged: no stock mutation, no order document, no movement. -/
theorem C5_no_side_effects (st : DBState) (dto : CreateOrderDto)
    (supportsTransactions : Bool) (f : Faults) (e : OrderError)
    (hne : dto.items ≠ [])
    (hval : validateAndComputeTotals st dto = .error e) :
    create st dto supportsTransactions f = (.error e, st) := by
  have hempty : dto.items.isEmpty = false := by
    cases h : dto.items with
    | nil => exact absurd h hne
    | cons a l => rfl
  simp [create, hempty, hval]

/-- Witness for C5: the mispriced fixture order is rejected and the store
snapshot is returned unchanged. -/
theorem C5_witness :
    exDtoBad.items ≠ [] ∧
    validateAndComputeTotals exState exDtoBad =
      .error (.pricingMismatchTotal (1497 / 100) 1) ∧
    create exState exDtoBad false noFaults =
      (.error (.pricingMismatchTotal (1497 / 100) 1), exState) :=
  ⟨by decide,
   by norm_num [validateAndComputeTotals, validateItems, findProduct, exState,
     exDtoBad, exDto, exProduct, tolerance, List.find?, abs_of_pos, abs_of_nonneg],
   C5_no_side_effects exState exDtoBad false noFaults _ (by decide)
     (by norm_num [validateAndComputeTotals, validateItems, findProduct, exState,
       exDtoBad, exDto, exProduct, tolerance, List.find?, abs_of_pos, abs_of_nonneg])⟩

lemma mem_updateFirst {α : Type} (p : α → Bool) (f : α → α) :
    ∀ (l : List α) (x z : α), l.find? p = some x → z ∈ updateFirst p f l →
      z ∈ l ∨ z = f x := by
  intro l
  induction l with
  | nil => intro x z hx hz; cases hz
  | cons a xs ih =>
    intro x z hx hz
    by_cases hpa : p a = true
    · rw [List.find?_cons_of_pos _ hpa] at hx
      injection hx with hx
      subst hx
      rw [updateFirst, if_pos hpa] at hz
      rcases List.mem_cons.mp hz with h1 | h2
      · exact Or.inr h1
      · exact Or.inl (List.mem_cons_of_mem _ h2)
    · rw [List.find?_cons_of_neg _ hpa] at hx
      rw [updateFirst, if_neg hpa] at hz
      rcases List.mem_cons.mp hz with h1 | h2
      · exact Or.inl (h1 ▸ List.mem_cons_self a xs)
      · rcases ih x z hx h2 with h3 | h4
        · exact Or.inl (List.mem_cons_of_mem _ h3)
        · exact Or.inr h4

lemma find?_updateFirst_same {α : Type} (p : α → Bool) (f : α → α) :
    ∀ (l : List α) (x : α), l.find? p = some x → p (f x) = true →
      (updateFirst p f l).find? p = some (f x) := by
  intro l
  induction l with
  | nil => intro x hx _; cases hx
  | cons a xs ih =>
    intro x hx hfx
    by_cases hpa : p a = true
    · rw [List.find?_cons_of_pos _ hpa] at hx
      injection hx with hx
      subst hx
      rw [updateFirst, if_pos hpa]
      exact List.find?_cons_of_pos _ hfx
    · rw [List.find?_cons_of_neg _ hpa] at hx
      rw [updateFirst, if_neg hpa]
      rw [List.find?_cons_of_neg _ hpa]
      exact ih x hx hfx

lemma mem_of_find?_updateFirst {α : Type} (p : α → Bool) (f : α → α)
    (l : List α) (x : α) (hx : l.find? p = some x) (hfx : p (f x) = true) :
    f x ∈ updateFirst p f l :=
  List.mem_of_find?_eq_some (find?_updateFirst_same p f l x hx hfx)

lemma updateFirst_updateFirst {α : Type} (p : α → Bool) (f g : α → α)
    (hp : ∀ x, p (f x) = p x) :
    ∀ l : List α, updateFirst p g (updateFirst p f l) =
      updateFirst p (fun x => g (f x)) l := by
  intro l
  induction l with
  | nil => rfl
  | cons a xs ih =>
    by_cases hpa : p a = true
    · rw [updateFirst, if_pos hpa, updateFirst, if_pos ((hp a).trans hpa),
        updateFirst, if_pos hpa]
    · rw [updateFirst, if_neg hpa, updateFirst, if_neg hpa, updateFirst,
        if_neg hpa, ih]

lemma updateFirst_congr {α : Type} (p : α → Bool) (f g : α → α)
    (h : ∀ x, f x = g x) :
    ∀ l : List α, updateFirst p f l = updateFirst p g l := by
  intro l
  induction l with
  | nil => rfl
  | cons a xs ih =>
    by_cases hpa : p a = true
    · rw [updateFirst, if_pos hpa, updateFirst, if_pos hpa, h a]
    · rw [updateFirst, if_neg hpa, updateFirst, if_neg hpa, ih]

lemma updateFirst_id {α : Type} (p : α → Bool) :
    ∀ l : List α, updateFirst p (fun x => x) l = l := by
  intro l
  induction l with
  | nil => rfl
  | cons a xs ih =>
    by_cases hpa : p a = true
    · rw [updateFirst, if_pos hpa]
    · rw [updateFirst, if_neg hpa, ih]

/-- C10: updating a non-deleted order overwrites the document with the
caller-supplied fields exactly as given — in particular a supplied `total`,
`finalTotal` or item list is persisted verbatim with no pricing
re-validation — and it changes no product (hence no stock) and no stock
movement. -/
theorem C10_order_update (st : DBState) (oid : Nat) (dto : UpdateOrderDto)
    (o : Order)
    (hfind : st.orders.find? (fun x => x.id == oid && x.deletedAt.isNone) = some o) :
    ∃ o' st', ordersUpdate st oid dto = (.ok o', st') ∧
      (∀ x, dto.total = some x → o'.total = x) ∧
      (∀ x, dto.finalTotal = some x → o'.finalTotal = x) ∧
      (∀ x, dto.items = some x → o'.items = x) ∧
      (∀ x, dto.paymentMethod = some x → o'.paymentMethod = x) ∧
      (dto.total = none → o'.total = o.total) ∧
      (dto.finalTotal = none → o'.finalTotal = o.finalTotal) ∧
      st'.products = st.products ∧
      st'.movements = st.movements ∧
      st'.orders = updateFirst (fun x => x.id == oid && x.deletedAt.isNone)
        (fun _ => o') st.orders := by
  refine ⟨applyOrderUpdate dto o,
    { st with
      orders := updateFirst (fun x => x.id == oid && x.deletedAt.isNone)
        (fun _ => applyOrderUpdate dto o) st.orders },
    ?_, ?_, ?_, ?_, ?_, ?_, ?_, rfl, rfl, rfl⟩
  · simp only [ordersUpdate, hfind]
  · intro x hx; simp [applyOrderUpdate, hx]
  · intro x hx; simp [applyOrderUpdate, hx]
  · intro x hx; simp [applyOrderUpdate, hx]
  · intro x hx; simp [applyOrderUpdate, hx]
  · intro hx; simp [applyOrderUpdate, hx]
  · intro hx; simp [applyOrderUpdate, hx]

/-- Witness for C10 at the fixture store: updating `exOrder` with a bare
`total := 42`. -/
theorem C10_witness :
    exStateOrders.orders.find? (fun x => x.id == 10 && x.deletedAt.isNone) = some exOrder ∧
    (∃ o' st', ordersUpdate exStateOrders 10 exUpdateDto = (.ok o', st') ∧
      (∀ x, exUpdateDto.total = some x → o'.total = x) ∧
      (∀ x, exUpdateDto.finalTotal = some x → o'.finalTotal = x) ∧
      (∀ x, exUpdateDto.items = some x → o'.items = x) ∧
      (∀ x, exUpdateDto.paymentMethod = some x → o'.paymentMethod = x) ∧
      (exUpdateDto.total = none → o'.total = exOrder.total) ∧
      (exUpdateDto.finalTotal = none → o'.finalTotal = exOrder.finalTotal) ∧
      st'.products = exStateOrders.products ∧
      st'.movements = exStateOrders.movements ∧
      st'.orders = updateFirst (fun x => x.id == 10 && x.deletedAt.isNone)
        (fun _ => o') exStateOrders.orders) :=
  ⟨by rfl, C10_order_update exStateOrders 10 exUpdateDto exOrder (by rfl)⟩

/-- Counterexample to C9: a product whose `deletedAt` is set is returned by
`ProductsService.findAll`, which queries `productModel.find()` with no
soft-delete filter (and ProductsService offers no soft delete at all — its
`remove` is `findByIdAndDelete`). -/
theorem C9_counterexample :
    exDeletedProduct.deletedAt = some 5 ∧
    exDeletedProduct ∈ productsFindAll exStateDeleted :=
  ⟨rfl, by simp [productsFindAll, exStateDeleted]⟩

/-- C9 as amended: the read-exclusion and delete/restore round trip hold for
Orders — soft-deleted orders never appear in `findAll`, non-deleted ones
always do, and `remove` followed by `restore` returns the order to the read
path with every field except `deletedAt` as before — while ProductsService
performs no soft-delete filtering at all (see the counterexample). -/
theorem C9_soft_delete_orders :
    (∀ st : DBState, ∀ o ∈ ordersFindAll st, o.deletedAt = none) ∧
    (∀ (st : DBState) (o : Order), o ∈ st.orders → o.deletedAt = none →
      o ∈ ordersFindAll st) ∧
    (∀ (st : DBState) (oid now : Nat) (o : Order), findOrder st oid = some o →
      ∃ st1 st2,
        ordersRemove st oid now = (.ok { o with deletedAt := some now }, st1) ∧
        ordersRestore st1 oid = (.ok { o with deletedAt := none }, st2) ∧
        findOrder st2 oid = some { o with deletedAt := none } ∧
        { o with deletedAt := none } ∈ ordersFindAll st2) := by
  refine ⟨?_, ?_, ?_⟩
  · intro st o ho
    have := (List.mem_filter.mp ho).2
    exact Option.isNone_iff_eq_none.mp this
  · intro st o ho hd
    exact List.mem_filter.mpr ⟨ho, by simp [hd]⟩
  · intro st oid now o hfind
    have hid : (o.id == oid) = true := by
      simpa using List.find?_some hfind
    have hrem : ordersRemove st oid now =
        (.ok { o with deletedAt := some now },
          { st with
            orders :=
              updateFirst (fun x => x.id == oid)
                (fun _ => { o with deletedAt := some now }) st.orders }) := by
      simp only [ordersRemove, findOrder] at hfind ⊢
      rw [hfind]
    have hfind1 :
        (updateFirst (fun x : Order => x.id == oid)
          (fun _ => { o with deletedAt := some now }) st.orders).find?
            (fun x => x.id == oid) = some { o with deletedAt := some now } :=
      find?_updateFirst_same _ _ st.orders o hfind (by simpa using hid)
    have hres : ordersRestore
        { st with
          orders :=
            updateFirst (fun x => x.id == oid)
              (fun _ => { o with deletedAt := some now }) st.orders } oid =
        (.ok { o with deletedAt := none },
          { st with
            orders :=
              updateFirst (fun x => x.id == oid)
                (fun _ => { o with deletedAt := none })
                (updateFirst (fun x => x.id == oid)
                  (fun _ => { o with deletedAt := some now }) st.orders) }) := by
      simp only [ordersRestore, findOrder]
      rw [hfind1]
    refine ⟨_, _, hrem, hres, ?_, ?_⟩
    · exact find?_updateFirst_same _ _ _ _ hfind1 (by simpa using hid)
    · refine List.mem_filter.mpr ⟨?_, by simp⟩
      exact List.mem_of_find?_eq_some
        (find?_updateFirst_same _ _ _ _ hfind1 (by simpa using hid))

/-- Witness for C9's round-trip part at the fixture store: soft-deleting and
restoring `exOrder`. -/
theorem C9_witness :
    findOrder exStateOrders 10 = some exOrder ∧
    (∃ st1 st2,
      ordersRemove exStateOrders 10 77 = (.ok { exOrder with deletedAt := some 77 }, st1) ∧
      ordersRestore st1 10 = (.ok { exOrder with deletedAt := none }, st2) ∧
      findOrder st2 10 = some { exOrder with deletedAt := none } ∧
      { exOrder with deletedAt := none } ∈ ordersFindAll st2) :=
  ⟨by rfl, C9_soft_delete_orders.2.2 exStateOrders 10 77 exOrder (by rfl)⟩

lemma reserveProduct_ok_frame {st st' : DBState} {item : CartItemDto}
    (h : reserveProduct st item = .ok st') :
    st'.orders = st.orders ∧ st'.movements = st.movements ∧
    st'.salesReturns = st.salesReturns ∧ st'.nextId = st.nextId := by
  unfold reserveProduct at h
  cases hf : findProduct st item.product with
  | none => simp only [hf] at h; cases h
  | some p =>
    simp only [hf] at h
    by_cases hq : item.quantity ≤ p.stock
    · rw [if_pos hq] at h
      injection h with h
      subst h
      exact ⟨rfl, rfl, rfl, rfl⟩
    · rw [if_neg hq] at h; cases h

lemma reserveAll_ok_frame :
    ∀ (items : List CartItemDto) (st st' : DBState), reserveAll st items = .ok st' →
      st'.orders = st.orders ∧ st'.movements = st.movements ∧
      st'.salesReturns = st.salesReturns ∧ st'.nextId = st.nextId := by
  intro items
  induction items with
  | nil =>
    intro st st' h
    injection h with h
    subst h
    exact ⟨rfl, rfl, rfl, rfl⟩
  | cons item rest ih =>
    intro st st' h
    rw [reserveAll] at h
    cases hr : reserveProduct st item with
    | error e => rw [hr] at h; cases h
    | ok st1 =>
      rw [hr] at h
      obtain ⟨h1, h2, h3, h4⟩ := reserveProduct_ok_frame hr
      obtain ⟨g1, g2, g3, g4⟩ := ih st1 st' h
      exact ⟨g1.trans h1, g2.trans h2, g3.trans h3, g4.trans h4⟩

lemma reserveLoop_frame :
    ∀ (items : List CartItemDto) (st : DBState) (u : List (Nat × ℚ)),
      ((reserveLoop st items u).2.1).orders = st.orders ∧
      ((reserveLoop st items u).2.1).movements = st.movements ∧
      ((reserveLoop st items u).2.1).salesReturns = st.salesReturns ∧
      ((reserveLoop st items u).2.1).nextId = st.nextId := by
  intro items
  induction items with
  | nil => intro st u; exact ⟨rfl, rfl, rfl, rfl⟩
  | cons item rest ih =>
    intro st u
    rw [reserveLoop]
    cases hr : reserveProduct st item with
    | error e => exact ⟨rfl, rfl, rfl, rfl⟩
    | ok st1 =>
      obtain ⟨h1, h2, h3, h4⟩ := reserveProduct_ok_frame hr
      obtain ⟨g1, g2, g3, g4⟩ := ih st1 ((item.product, item.quantity) :: u)
      exact ⟨g1.trans h1, g2.trans h2, g3.trans h3, g4.trans h4⟩

lemma rollbackStock_frame (f : Faults) :
    ∀ (u : List (Nat × ℚ)) (st : DBState),
      (rollbackStock f st u).orders = st.orders ∧
      (rollbackStock f st u).movements = st.movements ∧
      (rollbackStock f st u).salesReturns = st.salesReturns ∧
      (rollbackStock f st u).nextId = st.nextId := by
  intro u
  induction u with
  | nil => intro st; exact ⟨rfl, rfl, rfl, rfl⟩
  | cons e rest ih =>
    intro st
    obtain ⟨pid, qty⟩ := e
    rw [rollbackStock]
    by_cases hf : f.releaseFails pid = true
    · rw [if_pos hf]; exact ih st
    · rw [if_neg hf]
      obtain ⟨g1, g2, g3, g4⟩ := ih (adjustStock st pid qty)
      exact ⟨g1, g2, g3, g4⟩

lemma recordMovement_ok_shape {st st' : DBState} {pid : Nat} {q : ℚ}
    {t : MovementType} {r : String} {ref : Option Nat}
    (h : recordMovement st pid q t r ref = .ok st') :
    st'.products = st.products ∧ st'.orders = st.orders ∧
    st'.salesReturns = st.salesReturns ∧
    ∃ mv, st'.movements = st.movements ++ [mv] := by
  unfold recordMovement at h
  cases hf : findProduct st pid with
  | none => rw [hf] at h; cases h
  | some p =>
    rw [hf] at h
    injection h with h
    subst h
    exact ⟨rfl, rfl, rfl, _, rfl⟩

lemma recordAllMovements_shape (oid : Nat) (f : Faults) :
    ∀ (items : List CartItemDto) (st : DBState) (k : Nat),
      ((recordAllMovements oid f st k items).2).products = st.products ∧
      ((recordAllMovements oid f st k items).2).orders = st.orders ∧
      ((recordAllMovements oid f st k items).2).salesReturns = st.salesReturns ∧
      ∃ tail, ((recordAllMovements oid f st k items).2).movements = st.movements ++ tail := by
  intro items
  induction items with
  | nil => intro st k; exact ⟨rfl, rfl, rfl, [], (List.append_nil _).symm⟩
  | cons item rest ih =>
    intro st k
    rw [recordAllMovements]
    by_cases hk : f.movementFails k = true
    · rw [if_pos hk]
      exact ⟨rfl, rfl, rfl, [], (List.append_nil _).symm⟩
    · rw [if_neg hk]
      cases hr : recordMovement st item.product item.quantity .outflow
          ("Sale - Order #" ++ toString oid) (some oid) with
      | error e => exact ⟨rfl, rfl, rfl, [], (List.append_nil _).symm⟩
      | ok st1 =>
        obtain ⟨h1, h2, h3, mv, h4⟩ := recordMovement_ok_shape hr
        obtain ⟨g1, g2, g3, tail, g4⟩ := ih st1 (k + 1)
        refine ⟨g1.trans h1, g2.trans h2, g3.trans h3, mv :: tail, ?_⟩
        rw [g4, h4]
        simp

lemma createWithTransaction_movements (st : DBState) (dto : CreateOrderDto)
    (items : List CartItemDto) (ct cft : ℚ) (f : Faults) :
    ∃ tail, (createWithTransaction st dto items ct cft f).2.movements =
      st.movements ++ tail := by
  unfold createWithTransaction
  split
  · exact ⟨[], by simp⟩
  next st1 hr =>
    obtain ⟨-, h2, -, -⟩ := reserveAll_ok_frame items st st1 hr
    split
    · exact ⟨[], by simp⟩
    · dsimp only
      split
      · exact ⟨[], by simp⟩
      next u st3 hm =>
        obtain ⟨-, -, -, tail, h4⟩ := recordAllMovements_shape
          (mkOrder st1.nextId dto items ct cft).id f items
          (persistOrder st1 (mkOrder st1.nextId dto items ct cft)) 0
        rw [hm] at h4
        have h4' : st3.movements = st1.movements ++ tail := h4
        refine ⟨tail, ?_⟩
        rw [h4']
        exact congrArg (· ++ tail) h2

lemma createWithAtomicOps_movements (st : DBState) (dto : CreateOrderDto)
    (items : List CartItemDto) (ct cft : ℚ) (f : Faults) :
    ∃ tail, (createWithAtomicOps st dto items ct cft f).2.movements =
      st.movements ++ tail := by
  unfold createWithAtomicOps
  split
  next e st1 undo hl =>
    have hfr := reserveLoop_frame items st []
    rw [hl] at hfr
    obtain ⟨-, hmov, -, -⟩ := hfr
    have hmov' : st1.movements = st.movements := hmov
    obtain ⟨-, h2, -, -⟩ := rollbackStock_frame f undo st1
    exact ⟨[], by simp [h2, hmov']⟩
  next u st1 undo hl =>
    have hfr := reserveLoop_frame items st []
    rw [hl] at hfr
    obtain ⟨-, hmov, -, -⟩ := hfr
    have hmov' : st1.movements = st.movements := hmov
    split
    · obtain ⟨-, h2, -, -⟩ := rollbackStock_frame f undo st1
      exact ⟨[], by simp [h2, hmov']⟩
    · dsimp only
      split
      next e stp hm =>
        obtain ⟨-, -, -, tail, h4⟩ := recordAllMovements_shape
          (mkOrder st1.nextId dto items ct cft).id f items
          (persistOrder st1 (mkOrder st1.nextId dto items ct cft)) 0
        rw [hm] at h4
        obtain ⟨-, h2, -, -⟩ := rollbackStock_frame f undo stp
        have h4' : stp.movements = st1.movements ++ tail := h4
        refine ⟨tail, ?_⟩
        dsimp only
        rw [h2, h4']
        exact congrArg (· ++ tail) hmov'
      next u2 st3 hm =>
        obtain ⟨-, -, -, tail, h4⟩ := recordAllMovements_shape
          (mkOrder st1.nextId dto items ct cft).id f items
          (persistOrder st1 (mkOrder st1.nextId dto items ct cft)) 0
        rw [hm] at h4
        have h4' : st3.movements = st1.movements ++ tail := h4
        refine ⟨tail, ?_⟩
        dsimp only
        rw [h4']
        exact congrArg (· ++ tail) hmov'

lemma create_movements (st : DBState) (dto : CreateOrderDto) (b : Bool) (f : Faults) :
    ∃ tail, (create st dto b f).2.movements = st.movements ++ tail := by
  unfold create
  split
  · exact ⟨[], by simp⟩
  · split
    · exact ⟨[], by simp⟩
    next v hv =>
      split
      · exact createWithTransaction_movements st dto v.items v.computedTotal
          v.computedFinalTotal f
      · exact createWithAtomicOps_movements st dto v.items v.computedTotal
          v.computedFinalTotal f

/-- Counterexample to C8: the stock-movements module exposes an update
operation (PUT /stock-movements/:id → StockMovementsService.update) that
rewrites an existing movement's quantity in place — here from 3 to 99. -/
theorem C8_counterexample :
    findMovement exStateMovements 9 = some exMovement ∧
    exMovement.quantity = 3 ∧
    findMovement ((stockMovementsUpdate exStateMovements 9 exMovementUpdate).2) 9 =
      some { exMovement with quantity := 99 } ∧
    (99 : ℚ) ≠ 3 :=
  ⟨rfl, rfl, by rfl, by norm_num⟩

lemma updateProductStock_movements (st : DBState) (pid : Nat) (q : ℚ)
    (d : Bool) : (updateProductStock st pid q d).movements = st.movements := by
  unfold updateProductStock
  split
  · rfl
  · rfl

lemma salesReturnCreate_movements (st : DBState) (dto : CreateSalesReturnDto) :
    ∃ tail, (salesReturnCreate st dto).2.movements = st.movements ++ tail := by
  unfold salesReturnCreate
  dsimp only
  by_cases happ : (dto.status == some ReturnStatus.approved) = true
  · rw [if_pos happ]
    split
    next e hrec => exact ⟨[], by simp⟩
    next st2 hrec =>
      obtain ⟨-, -, -, mv, h4⟩ := recordMovement_ok_shape hrec
      exact ⟨[mv], h4⟩
  · rw [if_neg happ]
    exact ⟨[], by simp⟩

lemma salesReturnUpdate_movements (st : DBState) (rid : Nat)
    (dto : UpdateSalesReturnDto) :
    ∃ tail, (salesReturnUpdate st rid dto).2.movements = st.movements ++ tail := by
  unfold salesReturnUpdate
  split
  · exact ⟨[], by simp⟩
  next existing hfr =>
    dsimp only
    by_cases h1 : dto.status.getD existing.status = existing.status
    · rw [if_pos h1]
      exact ⟨[], by simp⟩
    · rw [if_neg h1]
      by_cases h2 : dto.status.getD existing.status = ReturnStatus.approved
      · rw [if_pos h2]
        split
        next e hrec => exact ⟨[], by simp⟩
        next st1 hrec =>
          obtain ⟨-, -, -, mv, h4⟩ := recordMovement_ok_shape hrec
          exact ⟨[mv], h4⟩
      · rw [if_neg h2]
        by_cases h3 : existing.status = ReturnStatus.approved
        · rw [if_pos h3]
          split
          next e hrec => exact ⟨[], by simp⟩
          next st1 hrec =>
            obtain ⟨-, -, -, mv, h4⟩ := recordMovement_ok_shape hrec
            exact ⟨[mv], h4⟩
        · rw [if_neg h3]
          exact ⟨[], by simp⟩

lemma salesReturnRemove_movements (st : DBState) (rid : Nat) :
    ∃ tail, (salesReturnRemove st rid).2.movements = st.movements ++ tail := by
  unfold salesReturnRemove
  split
  · exact ⟨[], by simp⟩
  next r hfr =>
    dsimp only
    by_cases h1 : r.status = ReturnStatus.approved
    · rw [if_pos h1]
      split
      next e hrec => exact ⟨[], by simp⟩
      next st1 hrec =>
        obtain ⟨-, -, -, mv, h4⟩ := recordMovement_ok_shape hrec
        exact ⟨[mv], h4⟩
    · rw [if_neg h1]
      exact ⟨[], by simp⟩

lemma purchasesCreate_movements (st : DBState) (dto : CreatePurchaseDto) :
    ∃ tail, (purchasesCreate st dto).2.movements = st.movements ++ tail := by
  unfold purchasesCreate createStockMovement
  dsimp only
  rw [updateProductStock_movements]
  exact ⟨_, rfl⟩

lemma purchasesUpdate_movements (st : DBState) (pid : Nat)
    (dto : UpdatePurchaseDto) :
    ∃ tail, (purchasesUpdate st pid dto).2.movements = st.movements ++ tail := by
  unfold purchasesUpdate
  split
  · exact ⟨[], by simp⟩
  next existing hf =>
    dsimp only
    cases hq : dto.quantity with
    | none => exact ⟨[], by simp⟩
    | some q =>
      dsimp only
      by_cases hc : q ≠ 0 ∧ q ≠ existing.quantity
      · rw [if_pos hc]
        dsimp only [createStockMovement]
        rw [updateProductStock_movements]
        exact ⟨_, rfl⟩
      · rw [if_neg hc]
        exact ⟨[], by simp⟩

lemma purchasesRemove_movements (st : DBState) (pid : Nat) :
    ∃ tail, (purchasesRemove st pid).2.movements = st.movements ++ tail := by
  unfold purchasesRemove
  split
  · exact ⟨[], by simp⟩
  next p hf =>
    dsimp only [createStockMovement]
    rw [updateProductStock_movements]
    exact ⟨_, rfl⟩

/-- C8 as amended: every embedded pipeline only appends movement records —
order creation (both paths, any faults), sales-return create, update
(including status changes) and delete, and the cited purchases service's
create, update and delete never alter or remove an existing StockMovement —
but the public stock-movements module does expose update and remove:
`update` overwrites an existing movement's fields with the caller-supplied
values and `remove` deletes the record. -/
theorem C8_movement_surface :
    (∀ (st : DBState) (dto : CreateOrderDto) (b : Bool) (f : Faults),
      ∃ tail, (create st dto b f).2.movements = st.movements ++ tail) ∧
    (∀ (st : DBState) (mid : Nat) (dto : UpdateStockMovementDto) (m : StockMovement),
      findMovement st mid = some m →
      ∃ st', stockMovementsUpdate st mid dto = (.ok (applyMovementUpdate dto m), st') ∧
        findMovement st' mid = some (applyMovementUpdate dto m)) ∧
    (∀ (st : DBState) (mid : Nat) (m : StockMovement),
      findMovement st mid = some m →
      (stockMovementsRemove st mid).1 = .ok m ∧
      (stockMovementsRemove st mid).2.movements =
        removeFirst (fun x => x.id == mid) st.movements) ∧
    (∀ (st : DBState) (dto : CreateSalesReturnDto),
      ∃ tail, (salesReturnCreate st dto).2.movements = st.movements ++ tail) ∧
    (∀ (st : DBState) (rid : Nat) (dto : UpdateSalesReturnDto),
      ∃ tail, (salesReturnUpdate st rid dto).2.movements = st.movements ++ tail) ∧
    (∀ (st : DBState) (rid : Nat),
      ∃ tail, (salesReturnRemove st rid).2.movements = st.movements ++ tail) ∧
    (∀ (st : DBState) (dto : CreatePurchaseDto),
      ∃ tail, (purchasesCreate st dto).2.movements = st.movements ++ tail) ∧
    (∀ (st : DBState) (pid : Nat) (dto : UpdatePurchaseDto),
      ∃ tail, (purchasesUpdate st pid dto).2.movements = st.movements ++ tail) ∧
    (∀ (st : DBState) (pid : Nat),
      ∃ tail, (purchasesRemove st pid).2.movements = st.movements ++ tail) := by
  refine ⟨create_movements, ?_, ?_, salesReturnCreate_movements,
    salesReturnUpdate_movements, salesReturnRemove_movements,
    purchasesCreate_movements, purchasesUpdate_movements,
    purchasesRemove_movements⟩
  · intro st mid dto m hm
    have hid : (m.id == mid) = true := by
      have := List.find?_some (show st.movements.find? (fun x => x.id == mid) = some m from hm)
      simpa using this
    have hid' : ((applyMovementUpdate dto m).id == mid) = true := hid
    refine ⟨{ st with
      movements := updateFirst (fun x => x.id == mid)
        (fun _ => applyMovementUpdate dto m) st.movements }, ?_, ?_⟩
    · simp only [stockMovementsUpdate, hm]
    · exact find?_updateFirst_same _ _ st.movements m hm hid'
  · intro st mid m hm
    constructor
    · simp only [stockMovementsRemove, hm]
    · simp only [stockMovementsRemove, hm]

/-- Witness for C8's update clause at the fixture store. -/
theorem C8_witness :
    findMovement exStateMovements 9 = some exMovement ∧
    (∃ st', stockMovementsUpdate exStateMovements 9 exMovementUpdate =
        (.ok (applyMovementUpdate exMovementUpdate exMovement), st') ∧
      findMovement st' 9 = some (applyMovementUpdate exMovementUpdate exMovement)) :=
  ⟨by rfl, C8_movement_surface.2.1 exStateMovements 9 exMovementUpdate exMovement (by rfl)⟩

lemma mem_updateFirst_any {α : Type} (p : α → Bool) (f : α → α) :
    ∀ (l : List α) (z : α), z ∈ updateFirst p f l → z ∈ l ∨ ∃ y ∈ l, z = f y := by
  intro l
  induction l with
  | nil => intro z hz; cases hz
  | cons a xs ih =>
    intro z hz
    by_cases hpa : p a = true
    · rw [updateFirst, if_pos hpa] at hz
      rcases List.mem_cons.mp hz with h1 | h2
      · exact Or.inr ⟨a, List.mem_cons_self a xs, h1⟩
      · exact Or.inl (List.mem_cons_of_mem _ h2)
    · rw [updateFirst, if_neg hpa] at hz
      rcases List.mem_cons.mp hz with h1 | h2
      · exact Or.inl (h1 ▸ List.mem_cons_self a xs)
      · rcases ih z h2 with h3 | ⟨y, hy, hzy⟩
        · exact Or.inl (List.mem_cons_of_mem _ h3)
        · exact Or.inr ⟨y, List.mem_cons_of_mem _ hy, hzy⟩

lemma stocksNonneg_of_products_eq {st st' : DBState}
    (h : st'.products = st.products) (hnn : stocksNonneg st) : stocksNonneg st' := by
  intro p hp
  exact hnn p (h ▸ hp)

lemma adjustStock_nonneg {st : DBState} {pid : Nat} {d : ℚ}
    (hnn : stocksNonneg st) (hd : 0 ≤ d) : stocksNonneg (adjustStock st pid d) := by
  intro z hz
  rcases mem_updateFirst_any _ _ st.products z hz with h1 | ⟨y, hy, hzy⟩
  · exact hnn z h1
  · subst hzy
    exact add_nonneg (hnn y hy) hd

lemma reserveProduct_ok_nonneg {st st' : DBState} {item : CartItemDto}
    (h : reserveProduct st item = .ok st') (hnn : stocksNonneg st) :
    stocksNonneg st' := by
  unfold reserveProduct at h
  cases hf : findProduct st item.product with
  | none => simp only [hf] at h; cases h
  | some p =>
    simp only [hf] at h
    by_cases hq : item.quantity ≤ p.stock
    · rw [if_pos hq] at h
      injection h with h
      subst h
      intro z hz
      rcases mem_updateFirst _ _ st.products p z hf hz with h1 | h2
      · exact hnn z h1
      · subst h2
        simpa using sub_nonneg.mpr hq
    · rw [if_neg hq] at h; cases h

lemma reserveAll_ok_nonneg :
    ∀ (items : List CartItemDto) (st st' : DBState),
      reserveAll st items = .ok st' → stocksNonneg st → stocksNonneg st' := by
  intro items
  induction items with
  | nil =>
    intro st st' h hnn
    injection h with h
    subst h
    exact hnn
  | cons item rest ih =>
    intro st st' h hnn
    rw [reserveAll] at h
    cases hr : reserveProduct st item with
    | error e => rw [hr] at h; cases h
    | ok st1 =>
      rw [hr] at h
      exact ih st1 st' h (reserveProduct_ok_nonneg hr hnn)

lemma reserveLoop_nonneg_undo :
    ∀ (items : List CartItemDto) (st : DBState) (u : List (Nat × ℚ)),
      stocksNonneg st → (∀ e ∈ u, 0 ≤ e.2) → (∀ i ∈ items, 0 ≤ i.quantity) →
      stocksNonneg (reserveLoop st items u).2.1 ∧
      (∀ e ∈ (reserveLoop st items u).2.2, 0 ≤ e.2) := by
  intro items
  induction items with
  | nil => intro st u hnn hu _; exact ⟨hnn, hu⟩
  | cons item rest ih =>
    intro st u hnn hu hq
    rw [reserveLoop]
    cases hr : reserveProduct st item with
    | error e => exact ⟨hnn, hu⟩
    | ok st1 =>
      refine ih st1 ((item.product, item.quantity) :: u)
        (reserveProduct_ok_nonneg hr hnn) ?_ (fun i hi => hq i (by simp [hi]))
      intro e he
      rcases List.mem_cons.mp he with h1 | h2
      · subst h1
        exact hq item (by simp)
      · exact hu e h2

lemma rollbackStock_nonneg (f : Faults) :
    ∀ (u : List (Nat × ℚ)) (st : DBState),
      stocksNonneg st → (∀ e ∈ u, 0 ≤ e.2) → stocksNonneg (rollbackStock f st u) := by
  intro u
  induction u with
  | nil => intro st hnn _; exact hnn
  | cons e rest ih =>
    intro st hnn hu
    obtain ⟨pid, qty⟩ := e
    rw [rollbackStock]
    by_cases hf : f.releaseFails pid = true
    · rw [if_pos hf]
      exact ih st hnn (fun x hx => hu x (List.mem_cons_of_mem _ hx))
    · rw [if_neg hf]
      refine ih (adjustStock st pid qty)
        (adjustStock_nonneg hnn (hu (pid, qty) (List.mem_cons_self _ _))) ?_
      exact fun x hx => hu x (List.mem_cons_of_mem _ hx)

lemma validateItems_ok_inv (st : DBState) :
    ∀ (l : List CartItemDto) (t : ℚ) (vs : List CartItemDto),
      validateItems st l = .ok (t, vs) →
      t = specServerTotal st l ∧ specItemsOk st vs ∧
      ∀ i ∈ vs, ∃ i0 ∈ l, i.quantity = i0.quantity := by
  intro l
  induction l with
  | nil =>
    intro t vs h
    rw [validateItems] at h
    injection h with h
    injection h with h1 h2
    subst h1; subst h2
    exact ⟨rfl, by simp [specItemsOk], by simp⟩
  | cons item rest ih =>
    intro t vs h
    rw [validateItems] at h
    cases hf : findProduct st item.product with
    | none => rw [hf] at h; cases h
    | some p =>
      rw [hf] at h
      cases hv : validateItems st rest with
      | error e => rw [hv] at h; cases h
      | ok tv =>
        obtain ⟨t0, vs0⟩ := tv
        rw [hv] at h
        injection h with h
        injection h with h1 h2
        obtain ⟨g1, g2, g3⟩ := ih t0 vs0 hv
        subst h1
        subst h2
        refine ⟨by rw [serverTotal_cons st item rest p hf, g1], ?_, ?_⟩
        · intro i hi
          rcases List.mem_cons.mp hi with h3 | h4
          · exact ⟨p, by simp [h3, hf], by simp [h3]⟩
          · exact g2 i h4
        · intro i hi
          rcases List.mem_cons.mp hi with h3 | h4
          · exact ⟨item, List.mem_cons_self _ _, by simp [h3]⟩
          · obtain ⟨i0, hi0, hq⟩ := g3 i h4
            exact ⟨i0, List.mem_cons_of_mem _ hi0, hq⟩

lemma validateAndComputeTotals_ok_inv {st : DBState} {dto : CreateOrderDto}
    {v : ValidatedTotals} (h : validateAndComputeTotals st dto = .ok v) :
    validateItems st dto.items = .ok (v.computedTotal, v.items) ∧
    v.computedFinalTotal = v.computedTotal + dto.tax - dto.discount ∧
    |v.computedTotal - dto.total| ≤ tolerance ∧
    |v.computedFinalTotal - dto.finalTotal| ≤ tolerance := by
  unfold validateAndComputeTotals at h
  cases hv : validateItems st dto.items with
  | error e => rw [hv] at h; cases h
  | ok tv =>
    obtain ⟨t, vs⟩ := tv
    rw [hv] at h
    dsimp only at h
    by_cases h1 : tolerance < |t - dto.total|
    · rw [if_pos h1] at h; cases h
    · rw [if_neg h1] at h
      by_cases h2 : tolerance < |t + dto.tax - dto.discount - dto.finalTotal|
      · rw [if_pos h2] at h; cases h
      · rw [if_neg h2] at h
        injection h with h
        subst h
        exact ⟨by rfl, rfl, not_lt.mp h1, not_lt.mp h2⟩

lemma createWithTransaction_nonneg (st : DBState) (dto : CreateOrderDto)
    (items : List CartItemDto) (ct cft : ℚ) (f : Faults)
    (hnn : stocksNonneg st) :
    stocksNonneg (createWithTransaction st dto items ct cft f).2 := by
  unfold createWithTransaction
  split
  · exact hnn
  next st1 hr =>
    have hnn1 := reserveAll_ok_nonneg items st st1 hr hnn
    split
    · exact hnn
    · dsimp only
      split
      · exact hnn
      next u st3 hm =>
        obtain ⟨h1, -, -, -⟩ := recordAllMovements_shape
          (mkOrder st1.nextId dto items ct cft).id f items
          (persistOrder st1 (mkOrder st1.nextId dto items ct cft)) 0
        rw [hm] at h1
        have h1' : st3.products = st1.products := h1
        exact stocksNonneg_of_products_eq h1' hnn1

lemma createWithAtomicOps_nonneg (st : DBState) (dto : CreateOrderDto)
    (items : List CartItemDto) (ct cft : ℚ) (f : Faults)
    (hnn : stocksNonneg st) (hq : ∀ i ∈ items, 0 ≤ i.quantity) :
    stocksNonneg (createWithAtomicOps st dto items ct cft f).2 := by
  unfold createWithAtomicOps
  have hlu := reserveLoop_nonneg_undo items st [] hnn (by simp) hq
  split
  next e st1 undo hl =>
    rw [hl] at hlu
    have hnn1 : stocksNonneg st1 := hlu.1
    have hundo : ∀ e ∈ undo, 0 ≤ e.2 := hlu.2
    exact rollbackStock_nonneg f undo st1 hnn1 hundo
  next u st1 undo hl =>
    rw [hl] at hlu
    have hnn1 : stocksNonneg st1 := hlu.1
    have hundo : ∀ e ∈ undo, 0 ≤ e.2 := hlu.2
    split
    · exact rollbackStock_nonneg f undo st1 hnn1 hundo
    · dsimp only
      split
      next e stp hm =>
        obtain ⟨h1, -, -, -⟩ := recordAllMovements_shape
          (mkOrder st1.nextId dto items ct cft).id f items
          (persistOrder st1 (mkOrder st1.nextId dto items ct cft)) 0
        rw [hm] at h1
        have h1' : stp.products = st1.products := h1
        exact rollbackStock_nonneg f undo stp
          (stocksNonneg_of_products_eq h1' hnn1) hundo
      next u2 st3 hm =>
        obtain ⟨h1, -, -, -⟩ := recordAllMovements_shape
          (mkOrder st1.nextId dto items ct cft).id f items
          (persistOrder st1 (mkOrder st1.nextId dto items ct cft)) 0
        rw [hm] at h1
        have h1' : st3.products = st1.products := h1
        exact stocksNonneg_of_products_eq h1' hnn1

lemma create_nonneg (st : DBState) (dto : CreateOrderDto) (b : Bool) (f : Faults)
    (hnn : stocksNonneg st) (hq : ∀ i ∈ dto.items, 0 ≤ i.quantity) :
    stocksNonneg (create st dto b f).2 := by
  unfold create
  split
  · exact hnn
  · split
    · exact hnn
    next v hv =>
      have hvi := (validateAndComputeTotals_ok_inv hv).1
      have hq' : ∀ i ∈ v.items, 0 ≤ i.quantity := by
        intro i hi
        obtain ⟨i0, hi0, hq0⟩ :=
          (validateItems_ok_inv st dto.items v.computedTotal v.items hvi).2.2 i hi
        rw [hq0]
        exact hq i0 hi0
      split
      · exact createWithTransaction_nonneg st dto v.items v.computedTotal
          v.computedFinalTotal f hnn
      · exact createWithAtomicOps_nonneg st dto v.items v.computedTotal
          v.computedFinalTotal f hnn hq'

/-- Counterexample to C1: un-approving a sales return (status-change path of
SalesReturnsService.update) performs an unconditional `$inc` of
`-quantity` — with stock 3 and an approved return of 5 units, the product's
stock ends at −2, violating the `stock ≥ 0` invariant.  The decrement is a
direct write, not the Ledger's conditional decrement. -/
theorem C1_counterexample :
    stocksNonneg exStateReturn ∧
    ¬ stocksNonneg ((salesReturnUpdate exStateReturn 7
      { status := some ReturnStatus.pending }).2) := by
  constructor
  · intro p hp
    simp only [exStateReturn, List.mem_singleton] at hp
    subst hp
    norm_num [exReturnProduct, exProduct]
  · intro h
    have hprod : ((salesReturnUpdate exStateReturn 7
        { status := some ReturnStatus.pending }).2).products =
        [{ exReturnProduct with stock := -2 }] := by
      norm_num [salesReturnUpdate, findSalesReturn, exStateReturn,
        exApprovedReturn, recordMovement, adjustStock, findProduct,
        updateFirst, exReturnProduct, exProduct, applySalesReturnUpdate,
        List.find?]
      rw [if_neg (fun hc => ReturnStatus.noConfusion hc),
        if_neg (fun hc => ReturnStatus.noConfusion hc)]
    have hmem : ({ exReturnProduct with stock := -2 } : Product) ∈
        ((salesReturnUpdate exStateReturn 7
          { status := some ReturnStatus.pending }).2).products := by
      rw [hprod]; exact List.mem_singleton.mpr rfl
    have := h _ hmem
    norm_num at this

/-- C1 as amended: the `stock ≥ 0` invariant is preserved by order creation
on both paths (whose only decrement is the conditional one), by the purchase
service's `updateProductStock` (a direct write, but clamped at zero), and by
sales-return creation and approval; the exception forced by the
counterexample is the sales-return transition out of `approved` (update or
delete), whose unconditional decrement can drive stock negative. -/
theorem C1_stock_nonneg :
    (∀ (st : DBState) (dto : CreateOrderDto) (b : Bool) (f : Faults),
      stocksNonneg st → (∀ i ∈ dto.items, 0 ≤ i.quantity) →
      stocksNonneg (create st dto b f).2) ∧
    (∀ (st : DBState) (pid : Nat) (q : ℚ) (d : Bool),
      stocksNonneg st → 0 ≤ q → stocksNonneg (updateProductStock st pid q d)) ∧
    (∀ (st : DBState) (dto : CreateSalesReturnDto),
      stocksNonneg st → 0 ≤ dto.quantity →
      stocksNonneg (salesReturnCreate st dto).2) ∧
    (∀ (st : DBState) (rid : Nat) (dto : UpdateSalesReturnDto) (r : SalesReturn),
      findSalesReturn st rid = some r → r.status ≠ .approved → 0 ≤ r.quantity →
      stocksNonneg st → stocksNonneg (salesReturnUpdate st rid dto).2) := by
  refine ⟨create_nonneg, ?_, ?_, ?_⟩
  · intro st pid q d hnn hq0
    unfold updateProductStock
    split
    · exact hnn
    next p hf =>
      dsimp only
      intro z hz
      rcases mem_updateFirst _ _ st.products p z hf hz with h1 | h2
      · exact hnn z h1
      · subst h2
        dsimp only
        by_cases hd : d = true
        · rw [if_pos hd]
          exact add_nonneg (hnn p (List.mem_of_find?_eq_some hf)) hq0
        · rw [if_neg hd]
          exact le_max_left 0 _
  · intro st dto hnn hq0
    unfold salesReturnCreate
    dsimp only
    by_cases happ : (dto.status == some ReturnStatus.approved) = true
    · rw [if_pos happ]
      split
      next e hrec => exact stocksNonneg_of_products_eq rfl hnn
      next st2 hrec =>
        obtain ⟨h1, -, -, -⟩ := recordMovement_ok_shape hrec
        refine stocksNonneg_of_products_eq h1 ?_
        exact adjustStock_nonneg (stocksNonneg_of_products_eq rfl hnn) hq0
    · rw [if_neg happ]
      exact stocksNonneg_of_products_eq rfl hnn
  · intro st rid dto r hfr hstat hq0 hnn
    unfold salesReturnUpdate
    simp only [hfr]
    by_cases h1 : dto.status.getD r.status = r.status
    · rw [if_pos h1]
      exact stocksNonneg_of_products_eq rfl hnn
    · rw [if_neg h1]
      by_cases h2 : dto.status.getD r.status = ReturnStatus.approved
      · rw [if_pos h2]
        have hadj : stocksNonneg (adjustStock st r.productId r.quantity) :=
          adjustStock_nonneg hnn hq0
        split
        next e hrec => exact hnn
        next st1 hrec =>
          obtain ⟨hp, -, -, -⟩ := recordMovement_ok_shape hrec
          exact stocksNonneg_of_products_eq hp hadj
      · rw [if_neg h2, if_neg hstat]
        exact stocksNonneg_of_products_eq rfl hnn

/-- Witness for C1's order-creation clause at the fixture store. -/
theorem C1_witness :
    stocksNonneg exState ∧ (∀ i ∈ exDto.items, 0 ≤ i.quantity) ∧
    stocksNonneg (create exState exDto true noFaults).2 :=
  ⟨by decide, by decide,
   C1_stock_nonneg.1 exState exDto true noFaults (by decide) (by decide)⟩

lemma createWithTransaction_ok_inv {st : DBState} {dto : CreateOrderDto}
    {items : List CartItemDto} {ct cft : ℚ} {f : Faults} {o : Order} {st' : DBState}
    (h : createWithTransaction st dto items ct cft f = (.ok o, st')) :
    o.total = ct ∧ o.finalTotal = cft ∧ o.items = items ∧ o ∈ st'.orders := by
  unfold createWithTransaction at h
  split at h
  · simp at h
  next st1 hr =>
    split at h
    · simp at h
    · dsimp only at h
      split at h
      · simp at h
      next u st3 hm =>
        obtain ⟨-, h2, -, -⟩ := recordAllMovements_shape
          (mkOrder st1.nextId dto items ct cft).id f items
          (persistOrder st1 (mkOrder st1.nextId dto items ct cft)) 0
        rw [hm] at h2
        have h2' : st3.orders =
            st1.orders ++ [mkOrder st1.nextId dto items ct cft] := h2
        simp only [Prod.mk.injEq] at h
        obtain ⟨h1, hst⟩ := h
        injection h1 with h1
        subst h1
        subst hst
        refine ⟨rfl, rfl, rfl, ?_⟩
        rw [h2']
        simp

lemma createWithAtomicOps_ok_inv {st : DBState} {dto : CreateOrderDto}
    {items : List CartItemDto} {ct cft : ℚ} {f : Faults} {o : Order} {st' : DBState}
    (h : createWithAtomicOps st dto items ct cft f = (.ok o, st')) :
    o.total = ct ∧ o.finalTotal = cft ∧ o.items = items ∧ o ∈ st'.orders := by
  unfold createWithAtomicOps at h
  split at h
  · simp at h
  next u st1 undo hl =>
    split at h
    · simp at h
    · dsimp only at h
      split at h
      · simp at h
      next u2 st3 hm =>
        obtain ⟨-, h2, -, -⟩ := recordAllMovements_shape
          (mkOrder st1.nextId dto items ct cft).id f items
          (persistOrder st1 (mkOrder st1.nextId dto items ct cft)) 0
        rw [hm] at h2
        have h2' : st3.orders =
            st1.orders ++ [mkOrder st1.nextId dto items ct cft] := h2
        simp only [Prod.mk.injEq] at h
        obtain ⟨h1, hst⟩ := h
        injection h1 with h1
        subst h1
        subst hst
        refine ⟨rfl, rfl, rfl, ?_⟩
        rw [h2']
        simp

/-- C4: every successfully created order — on either path — is persisted
with the server-computed totals: `total` is the sum of the authoritative
`sellingPrice × quantity` over the submitted items, `finalTotal` is that sum
plus tax minus discount, and every persisted line item carries the
server-computed subtotal.  The client-submitted `total`/`finalTotal` are
never stored (they influence only the tolerance check), so even an accepted
client value that differs from the server value is not what gets
persisted. -/
theorem C4_persisted_totals (st : DBState) (dto : CreateOrderDto) (b : Bool)
    (f : Faults) (o : Order) (st' : DBState)
    (h : create st dto b f = (.ok o, st')) :
    o.total = specServerTotal st dto.items ∧
    o.finalTotal = specServerTotal st dto.items + dto.tax - dto.discount ∧
    specItemsOk st o.items ∧
    o ∈ st'.orders := by
  unfold create at h
  split at h
  · simp at h
  · split at h
    · simp at h
    next v hv =>
      obtain ⟨hvi, hfin, -, -⟩ := validateAndComputeTotals_ok_inv hv
      obtain ⟨hts, hspec, -⟩ :=
        validateItems_ok_inv st dto.items v.computedTotal v.items hvi
      split at h
      · obtain ⟨h1, h2, h3, h4⟩ := createWithTransaction_ok_inv h
        exact ⟨h1.trans hts, by rw [h2, hfin, hts], h3 ▸ hspec, h4⟩
      · obtain ⟨h1, h2, h3, h4⟩ := createWithAtomicOps_ok_inv h
        exact ⟨h1.trans hts, by rw [h2, hfin, hts], h3 ▸ hspec, h4⟩

/-- Witness for C4 at the fixture store: the created order is persisted with
the server-computed totals. -/
theorem C4_witness :
    create exState exDto true noFaults =
      (.ok
        { id := 100,
          items := [{ product := 1, quantity := 3, subtotal := 1497 / 100 }],
          total := 1497 / 100,
          tax := 0,
          discount := 0,
          finalTotal := 1497 / 100,
          paymentMethod := "cash",
          customerName := "",
          orderType := "sale" },
        { products := [{ exProduct with stock := 7 }],
          orders := [{
            id := 100,
            items := [{ product := 1, quantity := 3, subtotal := 1497 / 100 }],
            total := 1497 / 100,
            tax := 0,
            discount := 0,
            finalTotal := 1497 / 100,
            paymentMethod := "cash",
            customerName := "",
            orderType := "sale" }],
          movements := [{
            id := 101,
            productId := 1,
            productName := "Widget",
            quantity := 3,
            movementType := .outflow,
            reason := "Sale - Order #" ++ toString 100,
            reference := some 100 }],
          salesReturns := [],
          nextId := 102 }) ∧
    (Order.total
      { id := 100,
        items := [{ product := 1, quantity := 3, subtotal := 1497 / 100 }],
        total := 1497 / 100,
        tax := 0,
        discount := 0,
        finalTotal := 1497 / 100,
        paymentMethod := "cash",
        customerName := "",
        orderType := "sale" } = specServerTotal exState exDto.items) := by
  have heval : create exState exDto true noFaults =
      (.ok
        { id := 100,
          items := [{ product := 1, quantity := 3, subtotal := 1497 / 100 }],
          total := 1497 / 100,
          tax := 0,
          discount := 0,
          finalTotal := 1497 / 100,
          paymentMethod := "cash",
          customerName := "",
          orderType := "sale" },
        { products := [{ exProduct with stock := 7 }],
          orders := [{
            id := 100,
            items := [{ product := 1, quantity := 3, subtotal := 1497 / 100 }],
            total := 1497 / 100,
            tax := 0,
            discount := 0,
            finalTotal := 1497 / 100,
            paymentMethod := "cash",
            customerName := "",
            orderType := "sale" }],
          movements := [{
            id := 101,
            productId := 1,
            productName := "Widget",
            quantity := 3,
            movementType := .outflow,
            reason := "Sale - Order #" ++ toString 100,
            reference := some 100 }],
          salesReturns := [],
          nextId := 102 }) := by
    norm_num [create, exState, exDto, exProduct, validateAndComputeTotals,
      validateItems, findProduct, tolerance, createWithTransaction, reserveAll,
      reserveProduct, adjustStock, updateFirst, mkOrder, persistOrder,
      recordAllMovements, recordMovement, noFaults, List.find?,
      abs_of_pos, abs_of_nonneg]
  exact ⟨heval, (C4_persisted_totals exState exDto true noFaults _ _ heval).1⟩

lemma reserveProduct_ok_eq {st st' : DBState} {item : CartItemDto}
    (h : reserveProduct st item = .ok st') :
    st' = adjustStock st item.product (-item.quantity) := by
  unfold reserveProduct at h
  cases hf : findProduct st item.product with
  | none => simp only [hf] at h; cases h
  | some p =>
    simp only [hf] at h
    by_cases hq : item.quantity ≤ p.stock
    · rw [if_pos hq] at h
      injection h with h
      exact h.symm
    · rw [if_neg hq] at h; cases h

lemma updateFirst_stock_cancel (pid : Nat) (q : ℚ) :
    ∀ l : List Product,
      updateFirst (fun p => p.id == pid) (fun p => { p with stock := p.stock + q })
        (updateFirst (fun p => p.id == pid)
          (fun p => { p with stock := p.stock + -q }) l) = l := by
  intro l
  induction l with
  | nil => rfl
  | cons a xs ih =>
    by_cases hpa : (a.id == pid) = true
    · rw [updateFirst, if_pos hpa, updateFirst, if_pos hpa]
      have hx : a.stock + -q + q = a.stock := by ring
      show ({ a with stock := a.stock + -q + q } : Product) :: xs = a :: xs
      rw [hx]
    · rw [updateFirst, if_neg hpa, updateFirst, if_neg hpa, ih]

lemma adjust_cancel_products (st : DBState) (pid : Nat) (q : ℚ) :
    (adjustStock (adjustStock st pid (-q)) pid q).products = st.products :=
  updateFirst_stock_cancel pid q st.products

lemma rollbackStock_products_congr (f : Faults) :
    ∀ (u : List (Nat × ℚ)) (sa sb : DBState), sa.products = sb.products →
      (rollbackStock f sa u).products = (rollbackStock f sb u).products := by
  intro u
  induction u with
  | nil => intro sa sb h; exact h
  | cons e rest ih =>
    intro sa sb h
    obtain ⟨pid, qty⟩ := e
    rw [rollbackStock, rollbackStock]
    by_cases hf : f.releaseFails pid = true
    · rw [if_pos hf, if_pos hf]
      exact ih sa sb h
    · rw [if_neg hf, if_neg hf]
      refine ih (adjustStock sa pid qty) (adjustStock sb pid qty) ?_
      show updateFirst _ _ sa.products = updateFirst _ _ sb.products
      rw [h]

lemma rollback_reserveLoop (f : Faults) (hrel : ∀ pid, f.releaseFails pid = false) :
    ∀ (items : List CartItemDto) (st : DBState) (u : List (Nat × ℚ))
      (res : Except OrderError Unit) (st1 : DBState) (undo : List (Nat × ℚ)),
      reserveLoop st items u = (res, st1, undo) →
      (rollbackStock f st1 undo).products = (rollbackStock f st u).products := by
  intro items
  induction items with
  | nil =>
    intro st u res st1 undo h
    rw [reserveLoop] at h
    simp only [Prod.mk.injEq] at h
    obtain ⟨-, h2, h3⟩ := h
    subst h2; subst h3
    rfl
  | cons item rest ih =>
    intro st u res st1 undo h
    rw [reserveLoop] at h
    cases hr : reserveProduct st item with
    | error e =>
      rw [hr] at h
      simp only [Prod.mk.injEq] at h
      obtain ⟨-, h2, h3⟩ := h
      subst h2; subst h3
      rfl
    | ok st2 =>
      rw [hr] at h
      have hstep := ih st2 ((item.product, item.quantity) :: u) res st1 undo h
      rw [hstep, rollbackStock, if_neg (by rw [hrel item.product]; exact Bool.false_ne_true)]
      have h2 := reserveProduct_ok_eq hr
      subst h2
      exact rollbackStock_products_congr f u _ _
        (adjust_cancel_products st item.product item.quantity)

lemma reserveLoop_rollback_restores (f : Faults)
    (hrel : ∀ pid, f.releaseFails pid = false) {items : List CartItemDto}
    {st : DBState} {res : Except OrderError Unit} {st1 : DBState}
    {undo : List (Nat × ℚ)}
    (h : reserveLoop st items [] = (res, st1, undo)) :
    (rollbackStock f st1 undo).products = st.products :=
  rollback_reserveLoop f hrel items st [] res st1 undo h

/-- C6: on the fallback path, when the reservation loop fails with
`InsufficientStock` after some earlier reservations succeeded, every
previously-succeeded reservation is released — with no compensation fault
the final products (hence each stock), orders and movements all equal their
pre-call values, so no order document is persisted — and the original
`InsufficientStock` error is surfaced regardless of whether some
compensation update itself fails (the compensation error is swallowed). -/
theorem C6_fallback_compensation (st : DBState) (dto : CreateOrderDto)
    (items : List CartItemDto) (ct cft : ℚ) (name : String) (avail req : ℚ)
    (st1 : DBState) (undo : List (Nat × ℚ))
    (hres : reserveLoop st items [] =
      (.error (.insufficientStock name avail req), st1, undo)) :
    (∀ f : Faults, (createWithAtomicOps st dto items ct cft f).1 =
      .error (.insufficientStock name avail req)) ∧
    (∀ f : Faults, (∀ pid, f.releaseFails pid = false) →
      (createWithAtomicOps st dto items ct cft f).2.products = st.products ∧
      (createWithAtomicOps st dto items ct cft f).2.orders = st.orders ∧
      (createWithAtomicOps st dto items ct cft f).2.movements = st.movements) := by
  have hfr := reserveLoop_frame items st []
  rw [hres] at hfr
  have hord : st1.orders = st.orders := hfr.1
  have hmov : st1.movements = st.movements := hfr.2.1
  constructor
  · intro f
    unfold createWithAtomicOps
    rw [hres]
  · intro f hrel
    unfold createWithAtomicOps
    rw [hres]
    dsimp only
    obtain ⟨g1, g2, -, -⟩ := rollbackStock_frame f undo st1
    exact ⟨reserveLoop_rollback_restores f hrel hres, g1.trans hord, g2.trans hmov⟩

/-- Witness for C6 at the two-product fixture: item 1 (2 of 10 units of
product 1) succeeds, item 2 (5 of 1 unit of product 2) fails; the call
surfaces InsufficientStock for "Bolt" and restores product 1's stock. -/
theorem C6_witness :
    (reserveLoop exStateTwo exDtoTwo.items [] =
      (.error (.insufficientStock "Bolt" 1 5),
       { products := [{ exProduct with stock := 8 }, exProductB],
         orders := [], movements := [], salesReturns := [], nextId := 500 },
       [(1, 2)])) ∧
    ((∀ f : Faults,
      (createWithAtomicOps exStateTwo exDtoTwo exDtoTwo.items (998 / 100 + 10)
        (998 / 100 + 10) f).1 = .error (.insufficientStock "Bolt" 1 5)) ∧
     (∀ f : Faults, (∀ pid, f.releaseFails pid = false) →
      (createWithAtomicOps exStateTwo exDtoTwo exDtoTwo.items (998 / 100 + 10)
        (998 / 100 + 10) f).2.products = exStateTwo.products ∧
      (createWithAtomicOps exStateTwo exDtoTwo exDtoTwo.items (998 / 100 + 10)
        (998 / 100 + 10) f).2.orders = exStateTwo.orders ∧
      (createWithAtomicOps exStateTwo exDtoTwo exDtoTwo.items (998 / 100 + 10)
        (998 / 100 + 10) f).2.movements = exStateTwo.movements)) := by
  have hres : reserveLoop exStateTwo exDtoTwo.items [] =
      (.error (.insufficientStock "Bolt" 1 5),
       { products := [{ exProduct with stock := 8 }, exProductB],
         orders := [], movements := [], salesReturns := [], nextId := 500 },
       [(1, 2)]) := by
    norm_num [reserveLoop, reserveProduct, findProduct, adjustStock,
      updateFirst, exStateTwo, exDtoTwo, exProduct, exProductB, List.find?]
    rw [show ((1 : Nat) == 2) = false from rfl]
    norm_num
  exact ⟨hres, C6_fallback_compensation exStateTwo exDtoTwo exDtoTwo.items
    (998 / 100 + 10) (998 / 100 + 10) "Bolt" 1 5 _ _ hres⟩

/-- Counterexample to C7: on the fallback path, when the movement insert
fails after the order document was persisted, the catch block of
`createWithAtomicOps` rolls the stock decrement back (final stock is the
original 10, not the decremented 7 the claim requires) and rethrows the
error instead of merely logging it; only the order document survives. -/
theorem C7_counterexample :
    create exState exDto false exMoveFaults =
      (.error .movementFailed,
       { products := [exProduct],
         orders := [{
           id := 100,
           items := [{ product := 1, quantity := 3, subtotal := 1497 / 100 }],
           total := 1497 / 100,
           tax := 0,
           discount := 0,
           finalTotal := 1497 / 100,
           paymentMethod := "cash",
           customerName := "",
           orderType := "sale" }],
         movements := [],
         salesReturns := [],
         nextId := 101 }) ∧
    exProduct.stock = 10 ∧ (10 : ℚ) ≠ 10 - 3 := by
  refine ⟨?_, rfl, by norm_num⟩
  norm_num [create, exState, exDto, exProduct, exMoveFaults,
    validateAndComputeTotals, validateItems, findProduct, tolerance,
    createWithAtomicOps, reserveLoop, reserveProduct, adjustStock,
    updateFirst, mkOrder, persistOrder, recordAllMovements, recordMovement,
    rollbackStock, List.find?, abs_of_pos, abs_of_nonneg]

/-- C7 as amended: on the fallback path, a movement-recording failure after
the order document has been persisted leaves the order persisted, but —
contrary to the spec — the catch handler releases the already-applied stock
decrements (restoring every product to its pre-call stock when no
compensation fault occurs) and rethrows the movement error to the caller
rather than merely logging it. -/
theorem C7_movement_failure (st : DBState) (dto : CreateOrderDto)
    (items : List CartItemDto) (ct cft : ℚ) (f : Faults) (st1 stp : DBState)
    (undo : List (Nat × ℚ)) (e : OrderError)
    (hres : reserveLoop st items [] = (.ok (), st1, undo))
    (hsave : f.saveFails = false)
    (hrec : recordAllMovements (mkOrder st1.nextId dto items ct cft).id f
        (persistOrder st1 (mkOrder st1.nextId dto items ct cft)) 0 items =
      (.error e, stp))
    (hrel : ∀ pid, f.releaseFails pid = false) :
    (createWithAtomicOps st dto items ct cft f).1 = .error e ∧
    mkOrder st1.nextId dto items ct cft ∈
      (createWithAtomicOps st dto items ct cft f).2.orders ∧
    (createWithAtomicOps st dto items ct cft f).2.products = st.products := by
  have hcall : createWithAtomicOps st dto items ct cft f =
      (.error e, rollbackStock f stp undo) := by
    unfold createWithAtomicOps
    rw [hres]
    dsimp only
    rw [if_neg (by rw [hsave]; exact Bool.false_ne_true)]
    rw [hrec]
  obtain ⟨-, hord, -, -⟩ := recordAllMovements_shape
    (mkOrder st1.nextId dto items ct cft).id f items
    (persistOrder st1 (mkOrder st1.nextId dto items ct cft)) 0
  rw [hrec] at hord
  have hord' : stp.orders =
      st1.orders ++ [mkOrder st1.nextId dto items ct cft] := hord
  obtain ⟨g1, -, -, -⟩ := rollbackStock_frame f undo stp
  refine ⟨by rw [hcall], ?_, ?_⟩
  · rw [hcall]
    show mkOrder st1.nextId dto items ct cft ∈ (rollbackStock f stp undo).orders
    rw [g1, hord']
    simp
  · rw [hcall]
    show (rollbackStock f stp undo).products = st.products
    obtain ⟨hp, -, -, -⟩ := recordAllMovements_shape
      (mkOrder st1.nextId dto items ct cft).id f items
      (persistOrder st1 (mkOrder st1.nextId dto items ct cft)) 0
    rw [hrec] at hp
    have hp' : stp.products = st1.products := hp
    have hcongr := rollbackStock_products_congr f undo stp st1 hp'
    rw [hcongr]
    exact reserveLoop_rollback_restores f hrel hres

/-- Witness for C7 at the fixture store, with the movement insert for
item 0 failing. -/
theorem C7_witness :
    (createWithAtomicOps exState exDto exDto.items (1497 / 100) (1497 / 100)
        exMoveFaults).1 = .error .movementFailed ∧
    mkOrder (adjustStock exState 1 (-3)).nextId exDto exDto.items
        (1497 / 100) (1497 / 100) ∈
      (createWithAtomicOps exState exDto exDto.items (1497 / 100) (1497 / 100)
        exMoveFaults).2.orders ∧
    (createWithAtomicOps exState exDto exDto.items (1497 / 100) (1497 / 100)
      exMoveFaults).2.products = exState.products :=
  C7_movement_failure exState exDto exDto.items (1497 / 100) (1497 / 100)
    exMoveFaults (adjustStock exState 1 (-3))
    (persistOrder (adjustStock exState 1 (-3))
      (mkOrder (adjustStock exState 1 (-3)).nextId exDto exDto.items
        (1497 / 100) (1497 / 100)))
    [(1, 3)] .movementFailed (by rfl) rfl (by rfl) (fun _ => rfl)

lemma findProduct_single (st : DBState) (p : Product) (pid : Nat)
    (hp : st.products = [p]) (hid : p.id = pid) : findProduct st pid = some p := by
  unfold findProduct
  rw [hp]
  simp [hid]

lemma validate_mkSale (st : DBState) (p : Product) (pid : Nat) (q : ℚ)
    (hp : st.products = [p]) (hid : p.id = pid) :
    validateAndComputeTotals st (mkSaleDto pid p.sellingPrice q) =
      .ok ⟨p.sellingPrice * q, p.sellingPrice * q,
           [{ product := pid, quantity := q, subtotal := p.sellingPrice * q }]⟩ := by
  have hfp := findProduct_single st p pid hp hid
  simp only [mkSaleDto, validateAndComputeTotals, validateItems, hfp]
  rw [if_neg ?h1, if_neg ?h2]
  case h1 =>
    rw [show p.sellingPrice * q + 0 - p.sellingPrice * q = 0 by ring]
    norm_num [tolerance]
  case h2 =>
    rw [show p.sellingPrice * q + 0 + 0 - 0 - (p.sellingPrice * q) = 0 by ring]
    norm_num [tolerance]
  norm_num

lemma create_single_step (st : DBState) (p : Product) (pid : Nat) (q : ℚ)
    (hp : st.products = [p]) (hid : p.id = pid) :
    (q ≤ p.stock →
      orderSucceeded (create st (mkSaleDto pid p.sellingPrice q) true noFaults).1 = true ∧
      (create st (mkSaleDto pid p.sellingPrice q) true noFaults).2.products =
        [{ p with stock := p.stock - q }]) ∧
    (¬ q ≤ p.stock →
      orderSucceeded (create st (mkSaleDto pid p.sellingPrice q) true noFaults).1 = false ∧
      (create st (mkSaleDto pid p.sellingPrice q) true noFaults).2 = st) := by
  have hfp := findProduct_single st p pid hp hid
  have hval := validate_mkSale st p pid q hp hid
  have hcr : create st (mkSaleDto pid p.sellingPrice q) true noFaults =
      createWithTransaction st (mkSaleDto pid p.sellingPrice q)
        [{ product := pid, quantity := q, subtotal := p.sellingPrice * q }]
        (p.sellingPrice * q) (p.sellingPrice * q) noFaults := by
    unfold create
    rw [if_neg (by simp [mkSaleDto])]
    rw [hval]
    rfl
  constructor
  · intro hq
    rw [hcr]
    unfold createWithTransaction reserveAll reserveProduct
    rw [hfp]
    dsimp only
    rw [if_pos hq]
    dsimp only
    simp only [adjustStock, hp, updateFirst, hid, beq_self_eq_true, if_true,
      reserveAll, persistOrder, recordAllMovements, recordMovement, findProduct,
      mkOrder, noFaults, List.find?, orderSucceeded, sub_eq_add_neg,
      Bool.false_eq_true, if_false]
    exact ⟨trivial, trivial⟩
  · intro hq
    rw [hcr]
    unfold createWithTransaction reserveAll reserveProduct
    rw [hfp]
    dsimp only
    rw [if_neg hq]
    exact ⟨rfl, rfl⟩

/-- C2: N `createOrder` calls against a single product with stock S,
serialized in the order in which their atomic conditional decrements commit
(the only serialization point — the decrement is one indivisible conditional
update, so any interleaving linearizes to some commit order): the calls that
succeed are exactly the greedy first-committed-wins prefix-feasible ones
(`fitsGreedy`), the total quantity of the successful calls never exceeds S,
and the final stock S − Σ(successful quantities) stays nonnegative. -/
theorem C2_concurrent_orders (pid : Nat) (price : ℚ) :
    ∀ (qs : List ℚ) (st : DBState) (p : Product),
      st.products = [p] → p.id = pid → p.sellingPrice = price → 0 ≤ p.stock →
      (∀ q ∈ qs, 0 ≤ q) →
      (runOrders pid price st qs).1 = fitsGreedy p.stock qs ∧
      selectedSum (fitsGreedy p.stock qs) qs ≤ p.stock ∧
      (∃ p', (runOrders pid price st qs).2.products = [p'] ∧
        p'.stock = p.stock - selectedSum (fitsGreedy p.stock qs) qs ∧
        0 ≤ p'.stock) := by
  intro qs
  induction qs with
  | nil =>
    intro st p hp hid hprice hstock _
    refine ⟨rfl, by simpa [fitsGreedy, selectedSum] using hstock, p, hp, ?_, hstock⟩
    simp [fitsGreedy, selectedSum]
  | cons q qs ih =>
    intro st p hp hid hprice hstock hqs
    subst hprice
    have hq0 : 0 ≤ q := hqs q (by simp)
    have hstep := create_single_step st p pid q hp hid
    rw [runOrders]
    by_cases hq : q ≤ p.stock
    · obtain ⟨hsucc, hprodeq⟩ := hstep.1 hq
      obtain ⟨ih1, ih2, p'', hpp, hstk, hnn⟩ :=
        ih (create st (mkSaleDto pid p.sellingPrice q) true noFaults).2
          { p with stock := p.stock - q } hprodeq hid rfl
          (sub_nonneg.mpr hq) (fun x hx => hqs x (by simp [hx]))
      rw [fitsGreedy, if_pos hq]
      dsimp only
      refine ⟨?_, ?_, p'', hpp, ?_, hnn⟩
      · rw [hsucc, ih1]
      · rw [selectedSum]
        have h2 : selectedSum (fitsGreedy (p.stock - q) qs) qs ≤ p.stock - q := ih2
        linarith
      · rw [selectedSum]
        have h3 : p''.stock =
            p.stock - q - selectedSum (fitsGreedy (p.stock - q) qs) qs := hstk
        rw [h3]
        ring
    · obtain ⟨hsucc, hsteq⟩ := hstep.2 hq
      obtain ⟨ih1, ih2, p'', hpp, hstk, hnn⟩ :=
        ih (create st (mkSaleDto pid p.sellingPrice q) true noFaults).2 p
          (by rw [hsteq]; exact hp) hid rfl hstock
          (fun x hx => hqs x (by simp [hx]))
      rw [fitsGreedy, if_neg hq]
      dsimp only
      refine ⟨?_, ?_, p'', hpp, ?_, hnn⟩
      · rw [hsucc, ih1]
      · rw [selectedSum]
        exact ih2
      · rw [selectedSum]
        exact hstk

/-- Witness for C2 at the fixture store: three serialized calls requesting
3, 4 and 5 units against a stock of 10. -/
theorem C2_witness :
    exState.products = [exProduct] ∧ exProduct.id = 1 ∧
    exProduct.sellingPrice = 499 / 100 ∧ (0 : ℚ) ≤ exProduct.stock ∧
    (∀ q ∈ [(3 : ℚ), 4, 5], 0 ≤ q) ∧
    ((runOrders 1 (499 / 100) exState [3, 4, 5]).1 =
        fitsGreedy exProduct.stock [3, 4, 5] ∧
      selectedSum (fitsGreedy exProduct.stock [3, 4, 5]) [3, 4, 5] ≤
        exProduct.stock ∧
      (∃ p', (runOrders 1 (499 / 100) exState [3, 4, 5]).2.products = [p'] ∧
        p'.stock = exProduct.stock -
          selectedSum (fitsGreedy exProduct.stock [3, 4, 5]) [3, 4, 5] ∧
        0 ≤ p'.stock)) :=
  ⟨rfl, rfl, rfl, by decide, by decide,
   C2_concurrent_orders 1 (499 / 100) [3, 4, 5] exState exProduct rfl rfl rfl
     (by decide) (by decide)⟩

end POS




